import Mathlib

/-!
Verification of the cluster bootstrap orchestrator
(`testsuite/cluster-test/src/cluster_builder.rs`).

The orchestrator is embedded shallowly: every remote operation (scheduler,
pool scaler, secret store, genesis tool, file copy) is given its result by an
explicit environment, and each orchestration function is a pure Lean function
that returns both the trace of operations it performed (in program order of
the Rust source, with `try_join_all` fan-outs linearised in index order) and
the `Except` result the Rust function would return.

Names of pod/key helpers (`validator_pod_name`, the key-name constants, the
retrier) live in modules outside this repository's sources; where needed they
are modelled from the spec and marked as such in their doc comments.
-/

namespace ClusterBuilderProof

/-- Errors produced by remote calls or by the orchestrator itself.
`panicked` models a Rust `panic!`/`expect` aborting the run. -/
inductive Err where
  | remote (s : String)
  | panicked (s : String)
  deriving DecidableEq, Repr

/-- `KubeNode` (from `cluster_swarm_kube`): the fields the orchestrator
reads are `name` and `internal_ip`. -/
structure KubeNode where
  name : String
  internal_ip : String
  deriving DecidableEq, Repr

/-- Modelled from the spec: pod names are "derived deterministically from
role + index" (`vault_pod_name`, `lsr_pod_name`, `validator_pod_name`,
`fullnode_pod_name` live in the `instance` module, outside `src/`). We keep
them as a structured sum so that distinctness of names across roles and
indices is by construction, as the spec requires. -/
inductive PodName where
  | vaultPod (i : Nat)
  | lsrPod (i : Nat)
  | validatorPod (i : Nat)
  | fullnodePod (validator_index : Nat) (fullnode_index : Nat)
  deriving DecidableEq, Repr

/-- `ClusterBuilderParams` (structopt struct, lines 45-61). -/
structure ClusterBuilderParams where
  fullnodes_per_validator : Nat
  cfg : List String
  num_validators : Nat
  enable_lsr : Option Bool
  lsr_backend : String
  deriving DecidableEq, Repr

namespace ClusterBuilderParams

/-- `cfg_overrides` (lines 63-72): the default override followed by the
caller's `cfg` entries, appended verbatim. -/
def cfg_overrides (p : ClusterBuilderParams) : List String :=
  ["prune_window=50000"] ++ p.cfg

/-- `enable_lsr()` (lines 74-76): `self.enable_lsr.unwrap_or(true)`. -/
def enable_lsr_value (p : ClusterBuilderParams) : Bool :=
  p.enable_lsr.getD true

end ClusterBuilderParams

/-- The instance-count computation of `setup_cluster` (lines 113-121):
start from `num_validators + fullnodes_per_validator * num_validators`,
then add `num_validators * 2` for the vault backend, `num_validators`
for any other backend, when the lsr tier is enabled. -/
def requiredInstanceCount (p : ClusterBuilderParams) : Nat :=
  let base := p.num_validators + p.fullnodes_per_validator * p.num_validators
  if p.enable_lsr_value then
    if p.lsr_backend = "vault" then
      base + p.num_validators * 2
    else
      base + p.num_validators
  else
    base

/-- The spec's formula (§8, first bullet), written exactly as the spec words
it: `validators + validators×fullnodesPerValidator + roleExtra`. -/
def specRoleExtra (p : ClusterBuilderParams) : Nat :=
  if !p.enable_lsr_value then 0
  else if p.lsr_backend = "vault" then 2 * p.num_validators
  else p.num_validators

/-- The spec's required-instance-count formula. -/
def specInstanceCount (p : ClusterBuilderParams) : Nat :=
  p.num_validators + p.num_validators * p.fullnodes_per_validator + specRoleExtra p

theorem requiredInstanceCount_formula (p : ClusterBuilderParams) :
    requiredInstanceCount p = specInstanceCount p := by
  unfold requiredInstanceCount specInstanceCount specRoleExtra
  cases h : p.enable_lsr_value <;> by_cases hb : p.lsr_backend = "vault" <;>
    simp [h, hb] <;> ring

/-! ## The genesis pipeline (`generate_genesis`, lines 373-525)

`generate_genesis` is a sequential chain of `.await`ed calls; only the final
artifact distribution is a `try_join_all` fan-out, which we linearise in
index order (no claim depends on the order inside that fan-out).  Each call's
outcome is supplied by a `GenEnv`; the interpreter returns the list of
operations attempted (in program order, stopping at the first failure) and
the error, if any. -/

/-- `/tmp/genesis.blob` (`GENESIS_PATH`, line 43). -/
def GENESIS_PATH : String := "/tmp/genesis.blob"

/-- The destination path of the genesis artifact on every validator node
(line 515). -/
def GENESIS_DEST : String := "/opt/libra/etc/genesis2.blob"

/-- The endpoint string built at lines 450 and 454:
`format!("/ip4/{}/tcp/{}", ip, 6180)`. -/
def addrString (ip : String) : String :=
  "/ip4/" ++ ip ++ "/tcp/6180"

/-- One operation of `generate_genesis`.  `parseValidatorAddr` /
`parseFullnodeAddr` are the two local `NetworkAddress::from_str(..).expect`
argument evaluations of the `validator_config` call; `writeLayoutFile` /
`writeTokenFile` / `readGenesisFile` are local filesystem operations; all
other constructors are remote calls. -/
inductive GenCall where
  | writeLayoutFile
  | writeTokenFile
  | setLayout
  | libraRootKey
  | ownerKey (i : Nat)
  | operatorKey (i : Nat)
  | parseValidatorAddr (i : Nat) (s : String)
  | parseFullnodeAddr (i : Nat) (s : String)
  | validatorConfig (i : Nat)
  | setOperator (i : Nat)
  | genesis
  | waypoint (i : Nat)
  | extractPrivateKey
  | readGenesisFile (i : Nat)
  | putFile (i : Nat) (nodeName : String) (destPath : String) (bytes : List Nat)
  deriving DecidableEq, Repr

/-- Results of the individual calls of `generate_genesis`, supplied by the
surroundings.  `parseAddr` tells whether a given endpoint string parses as a
`NetworkAddress` (the parser itself is external to this repository).
`genesisBlob` is the byte content that the finalize step leaves at
`GENESIS_PATH`; the path is written once and never mutated afterwards
(single-writer, see spec §5), so every successful read returns it. -/
structure GenEnv where
  writeLayoutFileRes : Except Err Unit
  writeTokenFileRes : Except Err Unit
  setLayoutRes : Except Err Unit
  libraRootKeyRes : Except Err Unit
  ownerKeyRes : Nat → Except Err Unit
  operatorKeyRes : Nat → Except Err Unit
  parseAddr : String → Bool
  validatorConfigRes : Nat → Except Err Unit
  setOperatorRes : Nat → Except Err Unit
  genesisRes : Except Err Unit
  waypointRes : Nat → Except Err Unit
  extractPrivateKeyRes : Except Err Unit
  genesisBlob : List Nat
  readGenesisRes : Nat → Except Err Unit
  putFileRes : Nat → Except Err Unit

/-- Run a list of (operation, outcome) pairs in order, recording each
attempted operation and stopping at the first failure — the semantics of a
chain of `?`-propagated `.await`s. -/
def seqCalls {α : Type} : List (α × Except Err Unit) → List α × Option Err
  | [] => ([], none)
  | (c, Except.error e) :: _ => ([c], some e)
  | (c, Except.ok _) :: rest =>
      (c :: (seqCalls rest).1, (seqCalls rest).2)

/-- Rust slice indexing `nodes[i]`; all runs the claims quantify over index
within bounds (out of bounds would be a Rust panic). -/
def nodeAt (l : List KubeNode) (i : Nat) : KubeNode :=
  l.getD i ⟨"", ""⟩

/-- The `expect`-message of lines 452/456. -/
def parseFailMsg : String := "Failed to parse network address"

/-- The body of the per-validator registration loop (lines 424-470):
`owner_key`, `operator_key`, then the two address parses (argument
evaluation for `validator_config`, a panic on failure), `validator_config`,
`set_operator`. -/
def registrationBlock (env : GenEnv) (validatorNodes fullnodeNodes : List KubeNode)
    (i : Nat) : List (GenCall × Except Err Unit) :=
  let vs := addrString (nodeAt validatorNodes i).internal_ip
  let fns := addrString (nodeAt fullnodeNodes i).internal_ip
  [(GenCall.ownerKey i, env.ownerKeyRes i),
   (GenCall.operatorKey i, env.operatorKeyRes i)] ++
  (if env.parseAddr vs then
    (GenCall.parseValidatorAddr i vs, Except.ok ()) ::
    (if env.parseAddr fns then
      [(GenCall.parseFullnodeAddr i fns, Except.ok ()),
       (GenCall.validatorConfig i, env.validatorConfigRes i),
       (GenCall.setOperator i, env.setOperatorRes i)]
    else
      [(GenCall.parseFullnodeAddr i fns, Except.error (Err.panicked parseFailMsg))])
  else
    [(GenCall.parseValidatorAddr i vs, Except.error (Err.panicked parseFailMsg))])

/-- `for (i, node) in vault_nodes.iter().enumerate()` over the registration
loop, starting at index `i`. -/
def regBlocksFrom (env : GenEnv) (validatorNodes fullnodeNodes : List KubeNode) :
    Nat → List KubeNode → List (GenCall × Except Err Unit)
  | _, [] => []
  | i, _ :: rest =>
      registrationBlock env validatorNodes fullnodeNodes i ++
        regBlocksFrom env validatorNodes fullnodeNodes (i + 1) rest

/-- The waypoint loop (lines 474-492), one `create_and_insert_waypoint` per
vault node. -/
def waypointsFrom (env : GenEnv) : Nat → List KubeNode → List (GenCall × Except Err Unit)
  | _, [] => []
  | i, _ :: rest => (GenCall.waypoint i, env.waypointRes i) :: waypointsFrom env (i + 1) rest

/-- One artifact-distribution task (lines 508-519): read `GENESIS_PATH`,
then `put_file` the bytes to the validator node.  If the read fails the
`put_file` is never attempted. -/
def distTask (env : GenEnv) (i : Nat) (node : KubeNode) : List (GenCall × Except Err Unit) :=
  match env.readGenesisRes i with
  | Except.error e => [(GenCall.readGenesisFile i, Except.error e)]
  | Except.ok _ =>
      [(GenCall.readGenesisFile i, Except.ok ()),
       (GenCall.putFile i node.name GENESIS_DEST env.genesisBlob, env.putFileRes i)]

/-- The distribution fan-out (lines 504-522), linearised in index order. -/
def distTasksFrom (env : GenEnv) : Nat → List KubeNode → List (GenCall × Except Err Unit)
  | _, [] => []
  | i, node :: rest => distTask env i node ++ distTasksFrom env (i + 1) rest

/-- The full program of `generate_genesis` as an ordered list of
(operation, outcome) pairs. -/
def genPlan (env : GenEnv) (vaultNodes validatorNodes fullnodeNodes : List KubeNode) :
    List (GenCall × Except Err Unit) :=
  [(GenCall.writeLayoutFile, env.writeLayoutFileRes),
   (GenCall.writeTokenFile, env.writeTokenFileRes),
   (GenCall.setLayout, env.setLayoutRes),
   (GenCall.libraRootKey, env.libraRootKeyRes)] ++
  regBlocksFrom env validatorNodes fullnodeNodes 0 vaultNodes ++
  [(GenCall.genesis, env.genesisRes)] ++
  waypointsFrom env 0 vaultNodes ++
  [(GenCall.extractPrivateKey, env.extractPrivateKeyRes)] ++
  distTasksFrom env 0 validatorNodes

/-- `generate_genesis`: run the plan, returning the trace of attempted
operations and the error, if any. -/
def generateGenesis (env : GenEnv) (vaultNodes validatorNodes fullnodeNodes : List KubeNode) :
    List GenCall × Option Err :=
  seqCalls (genPlan env vaultNodes validatorNodes fullnodeNodes)

/-! ### Generic lemmas about `seqCalls` -/

theorem seqCalls_allOk {α : Type} :
    ∀ l : List (α × Except Err Unit),
      (∀ p ∈ l, p.2 = Except.ok ()) → seqCalls l = (l.map Prod.fst, none)
  | [], _ => rfl
  | (c, r) :: rest, h => by
      have hr : r = Except.ok () := h (c, r) (List.mem_cons_self _ _)
      subst hr
      have ih := seqCalls_allOk rest (fun p hp => h p (List.mem_cons_of_mem _ hp))
      simp [seqCalls, ih]

theorem seqCalls_none_forall {α : Type} :
    ∀ l : List (α × Except Err Unit),
      (seqCalls l).2 = none → ∀ p ∈ l, p.2 = Except.ok ()
  | [], _, p, hp => absurd hp (List.not_mem_nil p)
  | (c, r) :: rest, h, p, hp => by
      cases r with
      | error e => simp [seqCalls] at h
      | ok u =>
        cases u
        rcases List.mem_cons.mp hp with h1 | h1
        · rw [h1]
        · exact seqCalls_none_forall rest (by simpa [seqCalls] using h) p h1

theorem seqCalls_isSome_of_mem_error {α : Type} :
    ∀ (l : List (α × Except Err Unit)) (c : α) (e : Err),
      (c, Except.error e) ∈ l → ((seqCalls l).2).isSome
  | [], c, e, h => absurd h (List.not_mem_nil _)
  | (c', r) :: rest, c, e, h => by
      cases r with
      | error e' => simp [seqCalls]
      | ok u =>
        cases u
        rcases List.mem_cons.mp h with h1 | h1
        · exact absurd (congrArg Prod.snd h1) (by simp)
        · simpa [seqCalls] using seqCalls_isSome_of_mem_error rest c e h1

theorem seqCalls_trace_le {α : Type} :
    ∀ l : List (α × Except Err Unit), (seqCalls l).1 <+: l.map Prod.fst
  | [] => ⟨[], rfl⟩
  | (c, Except.error e) :: rest => ⟨(rest.map Prod.fst), by simp [seqCalls]⟩
  | (c, Except.ok ()) :: rest => by
      obtain ⟨t, ht⟩ := seqCalls_trace_le rest
      exact ⟨t, by simp [seqCalls, ht]⟩

/-! ### The fully successful run of `generate_genesis` -/

/-- An environment in which every call of `generate_genesis` succeeds and
every endpoint string parses. -/
structure GenEnvOk (env : GenEnv) : Prop where
  writeLayoutFile : env.writeLayoutFileRes = Except.ok ()
  writeTokenFile : env.writeTokenFileRes = Except.ok ()
  setLayout : env.setLayoutRes = Except.ok ()
  libraRootKey : env.libraRootKeyRes = Except.ok ()
  ownerKey : ∀ i, env.ownerKeyRes i = Except.ok ()
  operatorKey : ∀ i, env.operatorKeyRes i = Except.ok ()
  parse : ∀ s, env.parseAddr s = true
  validatorConfig : ∀ i, env.validatorConfigRes i = Except.ok ()
  setOperator : ∀ i, env.setOperatorRes i = Except.ok ()
  genesis : env.genesisRes = Except.ok ()
  waypoint : ∀ i, env.waypointRes i = Except.ok ()
  extractPrivateKey : env.extractPrivateKeyRes = Except.ok ()
  readGenesis : ∀ i, env.readGenesisRes i = Except.ok ()
  putFile : ∀ i, env.putFileRes i = Except.ok ()

/-- The operations of one registration block when both parses succeed. -/
def regBlockCalls (validatorNodes fullnodeNodes : List KubeNode) (i : Nat) : List GenCall :=
  [GenCall.ownerKey i, GenCall.operatorKey i,
   GenCall.parseValidatorAddr i (addrString (nodeAt validatorNodes i).internal_ip),
   GenCall.parseFullnodeAddr i (addrString (nodeAt fullnodeNodes i).internal_ip),
   GenCall.validatorConfig i, GenCall.setOperator i]

/-- The operations of the distribution fan-out when every read succeeds. -/
def distCallsFrom (blob : List Nat) : Nat → List KubeNode → List GenCall
  | _, [] => []
  | i, node :: rest =>
      GenCall.readGenesisFile i :: GenCall.putFile i node.name GENESIS_DEST blob ::
        distCallsFrom blob (i + 1) rest

theorem registrationBlock_allOk {env : GenEnv} (h : GenEnvOk env)
    (b c : List KubeNode) (i : Nat) :
    ∀ p ∈ registrationBlock env b c i, p.2 = Except.ok () := by
  intro p hp
  simp only [registrationBlock, h.parse, if_true, List.mem_append, List.mem_cons,
    List.not_mem_nil, or_false] at hp
  rcases hp with (h1 | h1) | h1 | h1 | h1 | h1 <;> rw [h1]
  · exact h.ownerKey i
  · exact h.operatorKey i
  · exact h.validatorConfig i
  · exact h.setOperator i

theorem registrationBlock_map_fst {env : GenEnv} (h : ∀ s, env.parseAddr s = true)
    (b c : List KubeNode) (i : Nat) :
    (registrationBlock env b c i).map Prod.fst = regBlockCalls b c i := by
  simp [registrationBlock, regBlockCalls, h]

theorem regBlocksFrom_allOk {env : GenEnv} (h : GenEnvOk env) (b c : List KubeNode) :
    ∀ (l : List KubeNode) (i : Nat), ∀ p ∈ regBlocksFrom env b c i l, p.2 = Except.ok ()
  | [], _, p, hp => absurd hp (List.not_mem_nil p)
  | _ :: rest, i, p, hp => by
      rcases List.mem_append.mp hp with h1 | h1
      · exact registrationBlock_allOk h b c i p h1
      · exact regBlocksFrom_allOk h b c rest (i + 1) p h1

theorem regBlocksFrom_map_fst {env : GenEnv} (h : ∀ s, env.parseAddr s = true)
    (b c : List KubeNode) :
    ∀ (l : List KubeNode) (i : Nat),
      (regBlocksFrom env b c i l).map Prod.fst =
        (List.range' i l.length).flatMap (regBlockCalls b c)
  | [], i => by simp [regBlocksFrom]
  | _ :: rest, i => by
      rw [regBlocksFrom, List.map_append, registrationBlock_map_fst h,
        regBlocksFrom_map_fst h b c rest (i + 1)]
      simp [List.range'_succ]

theorem waypointsFrom_allOk {env : GenEnv} (h : GenEnvOk env) :
    ∀ (l : List KubeNode) (i : Nat), ∀ p ∈ waypointsFrom env i l, p.2 = Except.ok ()
  | [], _, p, hp => absurd hp (List.not_mem_nil p)
  | _ :: rest, i, p, hp => by
      rcases List.mem_cons.mp hp with h1 | h1
      · rw [h1]; exact h.waypoint i
      · exact waypointsFrom_allOk h rest (i + 1) p h1

theorem waypointsFrom_map_fst (env : GenEnv) :
    ∀ (l : List KubeNode) (i : Nat),
      (waypointsFrom env i l).map Prod.fst = (List.range' i l.length).map GenCall.waypoint
  | [], i => by simp [waypointsFrom]
  | _ :: rest, i => by
      rw [waypointsFrom, List.map_cons, waypointsFrom_map_fst env rest (i + 1)]
      simp [List.range'_succ]

theorem distTasksFrom_allOk {env : GenEnv} (h : GenEnvOk env) :
    ∀ (l : List KubeNode) (i : Nat), ∀ p ∈ distTasksFrom env i l, p.2 = Except.ok ()
  | [], _, p, hp => absurd hp (List.not_mem_nil p)
  | node :: rest, i, p, hp => by
      rcases List.mem_append.mp hp with h1 | h1
      · simp only [distTask, h.readGenesis, List.mem_cons, List.not_mem_nil, or_false] at h1
        rcases h1 with h2 | h2 <;> rw [h2]
        exact h.putFile i
      · exact distTasksFrom_allOk h rest (i + 1) p h1

theorem distTasksFrom_map_fst {env : GenEnv} (h : ∀ i, env.readGenesisRes i = Except.ok ()) :
    ∀ (l : List KubeNode) (i : Nat),
      (distTasksFrom env i l).map Prod.fst = distCallsFrom env.genesisBlob i l
  | [], i => by simp [distTasksFrom, distCallsFrom]
  | node :: rest, i => by
      rw [distTasksFrom, List.map_append, distCallsFrom]
      simp [distTask, h, distTasksFrom_map_fst h rest (i + 1)]

/-- The complete trace of a fully successful `generate_genesis` run. -/
def genSuccessTrace (env : GenEnv) (vaultNodes validatorNodes fullnodeNodes : List KubeNode) :
    List GenCall :=
  [GenCall.writeLayoutFile, GenCall.writeTokenFile, GenCall.setLayout, GenCall.libraRootKey] ++
  (List.range vaultNodes.length).flatMap (regBlockCalls validatorNodes fullnodeNodes) ++
  [GenCall.genesis] ++
  (List.range vaultNodes.length).map GenCall.waypoint ++
  [GenCall.extractPrivateKey] ++
  distCallsFrom env.genesisBlob 0 validatorNodes

theorem genPlan_allOk {env : GenEnv} (h : GenEnvOk env)
    (a b c : List KubeNode) : ∀ p ∈ genPlan env a b c, p.2 = Except.ok () := by
  intro p hp
  rw [genPlan] at hp
  rcases List.mem_append.mp hp with h1 | h1
  rotate_left
  · exact distTasksFrom_allOk h b 0 p h1
  rcases List.mem_append.mp h1 with h2 | h2
  rotate_left
  · rw [List.mem_singleton.mp h2]; exact h.extractPrivateKey
  rcases List.mem_append.mp h2 with h3 | h3
  rotate_left
  · exact waypointsFrom_allOk h a 0 p h3
  rcases List.mem_append.mp h3 with h4 | h4
  rotate_left
  · rw [List.mem_singleton.mp h4]; exact h.genesis
  rcases List.mem_append.mp h4 with h5 | h5
  rotate_left
  · exact regBlocksFrom_allOk h b c a 0 p h5
  simp only [List.mem_cons, List.not_mem_nil, or_false] at h5
  rcases h5 with h6 | h6 | h6 | h6 <;> rw [h6]
  · exact h.writeLayoutFile
  · exact h.writeTokenFile
  · exact h.setLayout
  · exact h.libraRootKey

/-- On an all-successful environment, `generate_genesis` succeeds and its
trace is `genSuccessTrace`. -/
theorem generateGenesis_allOk {env : GenEnv} (h : GenEnvOk env)
    (a b c : List KubeNode) :
    generateGenesis env a b c = (genSuccessTrace env a b c, none) := by
  rw [generateGenesis, seqCalls_allOk _ (genPlan_allOk h a b c)]
  rw [genPlan, genSuccessTrace]
  simp only [List.map_append, List.map_cons, List.map_nil]
  rw [regBlocksFrom_map_fst h.parse, waypointsFrom_map_fst, distTasksFrom_map_fst h.readGenesis,
    List.range_eq_range']

/-! ### C2: order of the remote calls of `generate_genesis` -/

/-- Whether a `GenCall` is a remote call (everything except the local
layout/token file writes, the local address parses, and the local genesis
file reads). -/
def GenCall.isRemoteCall : GenCall → Bool
  | GenCall.writeLayoutFile => false
  | GenCall.writeTokenFile => false
  | GenCall.parseValidatorAddr _ _ => false
  | GenCall.parseFullnodeAddr _ _ => false
  | GenCall.readGenesisFile _ => false
  | _ => true

/-- The validator index of a per-validator registration call (owner key,
operator key, validator network configuration, operator binding), `none` for
every other operation. -/
def regIndexOf : GenCall → Option Nat
  | GenCall.ownerKey i => some i
  | GenCall.operatorKey i => some i
  | GenCall.validatorConfig i => some i
  | GenCall.setOperator i => some i
  | _ => none

/-- The `put_file` calls of a fully successful distribution fan-out. -/
def putFileCallsFrom (blob : List Nat) : Nat → List KubeNode → List GenCall
  | _, [] => []
  | i, node :: rest =>
      GenCall.putFile i node.name GENESIS_DEST blob :: putFileCallsFrom blob (i + 1) rest

theorem filter_flatMap {α β : Type} (l : List α) (f : α → List β) (p : β → Bool) :
    (l.flatMap f).filter p = l.flatMap fun a => (f a).filter p := by
  induction l with
  | nil => rfl
  | cons a t ih => simp [List.filter_append, ih]

theorem filterMap_flatMap {α β γ : Type} (l : List α) (f : α → List β) (p : β → Option γ) :
    (l.flatMap f).filterMap p = l.flatMap fun a => (f a).filterMap p := by
  induction l with
  | nil => rfl
  | cons a t ih => simp [List.filterMap_append, ih]

theorem flatMap_congr_of_mem {α β : Type} {l : List α} {f g : α → List β}
    (h : ∀ a ∈ l, f a = g a) : l.flatMap f = l.flatMap g := by
  induction l with
  | nil => rfl
  | cons a t ih =>
      simp only [List.flatMap_cons]
      rw [h a (List.mem_cons_self a t), ih (fun x hx => h x (List.mem_cons_of_mem a hx))]

theorem regBlockCalls_filter_remote (b c : List KubeNode) (i : Nat) :
    (regBlockCalls b c i).filter GenCall.isRemoteCall =
      [GenCall.ownerKey i, GenCall.operatorKey i,
       GenCall.validatorConfig i, GenCall.setOperator i] := by
  simp [regBlockCalls, GenCall.isRemoteCall]

theorem regBlockCalls_filterMap_reg (b c : List KubeNode) (i : Nat) :
    (regBlockCalls b c i).filterMap regIndexOf = List.replicate 4 i := by
  simp [regBlockCalls, regIndexOf, List.replicate]

theorem waypointMap_filter_remote (l : List Nat) :
    (l.map GenCall.waypoint).filter GenCall.isRemoteCall = l.map GenCall.waypoint := by
  induction l with
  | nil => rfl
  | cons a t ih => simp [GenCall.isRemoteCall, ih]

theorem waypointMap_filterMap_reg (l : List Nat) :
    (l.map GenCall.waypoint).filterMap regIndexOf = [] := by
  induction l with
  | nil => rfl
  | cons a t ih => simp [regIndexOf, ih]

theorem distCallsFrom_filter_remote (blob : List Nat) :
    ∀ (l : List KubeNode) (i : Nat),
      (distCallsFrom blob i l).filter GenCall.isRemoteCall = putFileCallsFrom blob i l
  | [], _ => rfl
  | node :: rest, i => by
      simp [distCallsFrom, putFileCallsFrom, GenCall.isRemoteCall,
        distCallsFrom_filter_remote blob rest (i + 1)]

theorem distCallsFrom_filterMap_reg (blob : List Nat) :
    ∀ (l : List KubeNode) (i : Nat), (distCallsFrom blob i l).filterMap regIndexOf = []
  | [], _ => rfl
  | node :: rest, i => by
      simp [distCallsFrom, regIndexOf, distCallsFrom_filterMap_reg blob rest (i + 1)]

/-- C2: when secret-tier nodes exist, `generate_genesis` performs its remote
calls in the fixed order: layout registration, root-key registration, the
per-validator registration loop in increasing index order (each validator's
four registrations contiguous and strictly before the next validator's),
genesis finalization, per-validator waypoint creation, root private-key
extraction, and artifact distribution; moreover the per-validator
registration calls, projected to their validator indices, form exactly the
blocks `[i,i,i,i]` for `i = 0, …, N-1` in order, so for `i < j` every
registration call of validator `i` precedes every registration call of
validator `j`. -/
theorem generateGenesis_remote_call_order {env : GenEnv} (h : GenEnvOk env)
    (vaultNodes validatorNodes fullnodeNodes : List KubeNode) :
    (generateGenesis env vaultNodes validatorNodes fullnodeNodes).2 = none ∧
    ((generateGenesis env vaultNodes validatorNodes fullnodeNodes).1).filter
        GenCall.isRemoteCall =
      [GenCall.setLayout, GenCall.libraRootKey] ++
      (List.range vaultNodes.length).flatMap
        (fun i => [GenCall.ownerKey i, GenCall.operatorKey i,
                   GenCall.validatorConfig i, GenCall.setOperator i]) ++
      [GenCall.genesis] ++
      (List.range vaultNodes.length).map GenCall.waypoint ++
      [GenCall.extractPrivateKey] ++
      putFileCallsFrom env.genesisBlob 0 validatorNodes ∧
    ((generateGenesis env vaultNodes validatorNodes fullnodeNodes).1).filterMap regIndexOf =
      (List.range vaultNodes.length).flatMap (fun i => List.replicate 4 i) := by
  rw [generateGenesis_allOk h]
  refine ⟨rfl, ?_, ?_⟩
  · rw [genSuccessTrace]
    simp only [List.filter_append, filter_flatMap, distCallsFrom_filter_remote,
      waypointMap_filter_remote]
    rw [flatMap_congr_of_mem
      (fun i _ => regBlockCalls_filter_remote validatorNodes fullnodeNodes i)]
    simp [GenCall.isRemoteCall]
  · rw [genSuccessTrace]
    simp only [List.filterMap_append, filterMap_flatMap, distCallsFrom_filterMap_reg,
      waypointMap_filterMap_reg]
    rw [flatMap_congr_of_mem
      (fun i _ => regBlockCalls_filterMap_reg validatorNodes fullnodeNodes i)]
    simp [regIndexOf, List.replicate]

/-- A concrete node for witnesses. -/
def sampleNode (k : Nat) : KubeNode :=
  { name := "node-" ++ toString k, internal_ip := "10.0.0." ++ toString k }

/-- A concrete all-successful genesis environment for witnesses. -/
def sampleGenEnv : GenEnv where
  writeLayoutFileRes := Except.ok ()
  writeTokenFileRes := Except.ok ()
  setLayoutRes := Except.ok ()
  libraRootKeyRes := Except.ok ()
  ownerKeyRes := fun _ => Except.ok ()
  operatorKeyRes := fun _ => Except.ok ()
  parseAddr := fun _ => true
  validatorConfigRes := fun _ => Except.ok ()
  setOperatorRes := fun _ => Except.ok ()
  genesisRes := Except.ok ()
  waypointRes := fun _ => Except.ok ()
  extractPrivateKeyRes := Except.ok ()
  genesisBlob := [7, 7, 7]
  readGenesisRes := fun _ => Except.ok ()
  putFileRes := fun _ => Except.ok ()

theorem sampleGenEnv_ok : GenEnvOk sampleGenEnv :=
  ⟨rfl, rfl, rfl, rfl, fun _ => rfl, fun _ => rfl, fun _ => rfl, fun _ => rfl,
   fun _ => rfl, rfl, fun _ => rfl, rfl, fun _ => rfl, fun _ => rfl⟩

/-- Witness for C2 at two vault nodes, two validators and two fullnodes. -/
theorem generateGenesis_remote_call_order_witness :
    (generateGenesis sampleGenEnv [sampleNode 0, sampleNode 1]
        [sampleNode 2, sampleNode 3] [sampleNode 4, sampleNode 5]).2 = none ∧
    ((generateGenesis sampleGenEnv [sampleNode 0, sampleNode 1]
        [sampleNode 2, sampleNode 3] [sampleNode 4, sampleNode 5]).1).filterMap regIndexOf =
      (List.range 2).flatMap (fun i => List.replicate 4 i) :=
  ⟨(generateGenesis_remote_call_order sampleGenEnv_ok
      [sampleNode 0, sampleNode 1] [sampleNode 2, sampleNode 3]
      [sampleNode 4, sampleNode 5]).1,
   (generateGenesis_remote_call_order sampleGenEnv_ok
      [sampleNode 0, sampleNode 1] [sampleNode 2, sampleNode 3]
      [sampleNode 4, sampleNode 5]).2.2⟩

/-! ### C6: distribution of the genesis artifact -/

/-- Projection of a `put_file` call to (validator index, destination path,
bytes pushed). -/
def putFileData : GenCall → Option (Nat × String × List Nat)
  | GenCall.putFile i _ dest bytes => some (i, dest, bytes)
  | _ => none

theorem flatMap_const_nil {α β : Type} (l : List α) :
    (l.flatMap fun _ => ([] : List β)) = [] := by
  induction l with
  | nil => rfl
  | cons a t ih => simp [ih]

theorem regBlockCalls_filterMap_putData (b c : List KubeNode) (i : Nat) :
    (regBlockCalls b c i).filterMap putFileData = [] := by
  simp [regBlockCalls, putFileData]

theorem waypointMap_filterMap_putData (l : List Nat) :
    (l.map GenCall.waypoint).filterMap putFileData = [] := by
  induction l with
  | nil => rfl
  | cons a t ih => simp [putFileData, ih]

theorem distCallsFrom_filterMap_putData (blob : List Nat) :
    ∀ (l : List KubeNode) (i : Nat),
      (distCallsFrom blob i l).filterMap putFileData =
        (List.range' i l.length).map (fun j => (j, GENESIS_DEST, blob))
  | [], _ => by simp [distCallsFrom]
  | node :: rest, i => by
      simp [distCallsFrom, putFileData, List.range'_succ,
        distCallsFrom_filterMap_putData blob rest (i + 1)]

/-- A pair attempted by the distribution task for index `i + k` belongs to
the fan-out over a list in which `k` is in bounds. -/
theorem mem_distTasksFrom_of_lt {env : GenEnv} :
    ∀ (l : List KubeNode) (i k : Nat) (hk : k < l.length) (p : GenCall × Except Err Unit),
      p ∈ distTask env (i + k) (l.get ⟨k, hk⟩) → p ∈ distTasksFrom env i l
  | node :: rest, i, 0, _, p, hp => by
      apply List.mem_append.mpr
      exact Or.inl (by simpa using hp)
  | node :: rest, i, k + 1, hk, p, hp => by
      apply List.mem_append.mpr
      apply Or.inr
      apply mem_distTasksFrom_of_lt rest (i + 1) k (Nat.lt_of_succ_lt_succ hk) p
      have harith : i + (k + 1) = (i + 1) + k := by omega
      rw [harith] at hp
      simpa using hp

/-- C6: with secret-tier nodes present, a successful run performs exactly
one genesis-artifact copy per validator node, each pushing the single blob
read from `GENESIS_PATH` to the fixed destination path (so all copies are
byte-identical); and if any single copy fails, `generate_genesis` fails. -/
theorem generateGenesis_distribution_complete (env : GenEnv)
    (vaultNodes validatorNodes fullnodeNodes : List KubeNode) :
    (GenEnvOk env →
      ((generateGenesis env vaultNodes validatorNodes fullnodeNodes).1).filterMap putFileData =
        (List.range validatorNodes.length).map
          (fun i => (i, GENESIS_DEST, env.genesisBlob))) ∧
    (∀ k e, k < validatorNodes.length → env.putFileRes k = Except.error e →
      ((generateGenesis env vaultNodes validatorNodes fullnodeNodes).2).isSome) := by
  constructor
  · intro h
    rw [generateGenesis_allOk h, genSuccessTrace]
    simp only [List.filterMap_append, filterMap_flatMap, distCallsFrom_filterMap_putData,
      waypointMap_filterMap_putData]
    rw [flatMap_congr_of_mem
      (fun i _ => regBlockCalls_filterMap_putData validatorNodes fullnodeNodes i),
      List.range_eq_range']
    simp [putFileData, flatMap_const_nil, List.range_eq_range']
  · intro k e hk he
    rw [generateGenesis]
    cases hr : env.readGenesisRes k with
    | error er =>
        apply seqCalls_isSome_of_mem_error _ (GenCall.readGenesisFile k) er
        rw [genPlan]
        apply List.mem_append.mpr
        apply Or.inr
        apply mem_distTasksFrom_of_lt validatorNodes 0 k (by simpa using hk)
        simp [distTask, hr]
    | ok u =>
        cases u
        apply seqCalls_isSome_of_mem_error _
          (GenCall.putFile k (validatorNodes.get ⟨k, by simpa using hk⟩).name
            GENESIS_DEST env.genesisBlob) e
        rw [genPlan]
        apply List.mem_append.mpr
        apply Or.inr
        apply mem_distTasksFrom_of_lt validatorNodes 0 k (by simpa using hk)
        simp [distTask, hr, he]

/-- `sampleGenEnv` with the copy to validator node 1 failing. -/
def sampleGenEnvPutFail : GenEnv :=
  { sampleGenEnv with
      putFileRes := fun k => if k = 1 then Except.error (Err.remote "x") else Except.ok () }

/-- Witness for C6: both conjuncts instantiated at two validator nodes. -/
theorem generateGenesis_distribution_complete_witness :
    ((generateGenesis sampleGenEnv [sampleNode 0, sampleNode 1]
        [sampleNode 2, sampleNode 3] [sampleNode 4, sampleNode 5]).1).filterMap putFileData =
      (List.range 2).map (fun i => (i, GENESIS_DEST, sampleGenEnv.genesisBlob)) ∧
    ((generateGenesis sampleGenEnvPutFail [sampleNode 0, sampleNode 1]
        [sampleNode 2, sampleNode 3] [sampleNode 4, sampleNode 5]).2).isSome :=
  ⟨(generateGenesis_distribution_complete sampleGenEnv [sampleNode 0, sampleNode 1]
      [sampleNode 2, sampleNode 3] [sampleNode 4, sampleNode 5]).1 sampleGenEnv_ok,
   (generateGenesis_distribution_complete sampleGenEnvPutFail [sampleNode 0, sampleNode 1]
      [sampleNode 2, sampleNode 3] [sampleNode 4, sampleNode 5]).2 1 (Err.remote "x")
      (by decide) rfl⟩

/-! ### C8: a malformed network address is fatal and never retried -/

/-- Whether a call is the parse of validator `k`'s validator-endpoint
(`side = false`) or fullnode-endpoint (`side = true`) string. -/
def parsePred (side : Bool) (k : Nat) : GenCall → Bool
  | GenCall.parseValidatorAddr i _ => !side && (i == k)
  | GenCall.parseFullnodeAddr i _ => side && (i == k)
  | _ => false

theorem mem_regBlocksFrom_of_lt {env : GenEnv} {b c : List KubeNode} :
    ∀ (l : List KubeNode) (i k : Nat), k < l.length →
      ∀ p : GenCall × Except Err Unit,
        p ∈ registrationBlock env b c (i + k) → p ∈ regBlocksFrom env b c i l
  | node :: rest, i, 0, _, p, hp => List.mem_append.mpr (Or.inl hp)
  | node :: rest, i, k + 1, hk, p, hp => by
      apply List.mem_append.mpr
      apply Or.inr
      apply mem_regBlocksFrom_of_lt rest (i + 1) k (Nat.lt_of_succ_lt_succ hk) p
      have harith : i + (k + 1) = (i + 1) + k := by omega
      rw [harith] at hp
      exact hp

theorem mem_genPlan_of_mem_reg {env : GenEnv} {a b c : List KubeNode}
    {p : GenCall × Except Err Unit} (hp : p ∈ regBlocksFrom env b c 0 a) :
    p ∈ genPlan env a b c := by
  rw [genPlan]
  exact List.mem_append.mpr (Or.inl (List.mem_append.mpr (Or.inl (List.mem_append.mpr
    (Or.inl (List.mem_append.mpr (Or.inl (List.mem_append.mpr (Or.inr hp)))))))))

theorem registrationBlock_countP_parse (env : GenEnv) (b c : List KubeNode)
    (side : Bool) (k i : Nat) :
    ((registrationBlock env b c i).map Prod.fst).countP (parsePred side k) ≤
      if i = k then 1 else 0 := by
  by_cases hik : i = k
  · subst hik
    cases hv : env.parseAddr (addrString (nodeAt b i).internal_ip) <;>
      cases hf : env.parseAddr (addrString (nodeAt c i).internal_ip) <;>
        cases side <;>
          simp [registrationBlock, hv, hf, parsePred, List.countP_cons]
  · cases hv : env.parseAddr (addrString (nodeAt b i).internal_ip) <;>
      cases hf : env.parseAddr (addrString (nodeAt c i).internal_ip) <;>
        cases side <;>
          simp [registrationBlock, hv, hf, hik, parsePred, List.countP_cons]

theorem regBlocksFrom_countP_parse (env : GenEnv) (b c : List KubeNode)
    (side : Bool) (k : Nat) :
    ∀ (l : List KubeNode) (i : Nat),
      ((regBlocksFrom env b c i l).map Prod.fst).countP (parsePred side k) ≤
        if i ≤ k ∧ k < i + l.length then 1 else 0
  | [], i => by simp [regBlocksFrom]
  | node :: rest, i => by
      rw [regBlocksFrom, List.map_append, List.countP_append]
      have h1 := registrationBlock_countP_parse env b c side k i
      have h2 := regBlocksFrom_countP_parse env b c side k rest (i + 1)
      have hlen : (node :: rest).length = rest.length + 1 := rfl
      rw [hlen]
      split_ifs at h1 h2 ⊢ <;> omega

theorem waypointsFrom_countP_parse (env : GenEnv) (side : Bool) (k : Nat) :
    ∀ (l : List KubeNode) (i : Nat),
      ((waypointsFrom env i l).map Prod.fst).countP (parsePred side k) = 0
  | [], _ => rfl
  | node :: rest, i => by
      simp [waypointsFrom, parsePred, List.countP_cons,
        waypointsFrom_countP_parse env side k rest (i + 1)]

theorem distTasksFrom_countP_parse (env : GenEnv) (side : Bool) (k : Nat) :
    ∀ (l : List KubeNode) (i : Nat),
      ((distTasksFrom env i l).map Prod.fst).countP (parsePred side k) = 0
  | [], _ => rfl
  | node :: rest, i => by
      rw [distTasksFrom, List.map_append, List.countP_append,
        distTasksFrom_countP_parse env side k rest (i + 1)]
      cases hr : env.readGenesisRes i <;> simp [distTask, hr, parsePred, List.countP_cons]

theorem genPlan_countP_parse (env : GenEnv) (a b c : List KubeNode)
    (side : Bool) (k : Nat) :
    ((genPlan env a b c).map Prod.fst).countP (parsePred side k) ≤ 1 := by
  rw [genPlan]
  simp only [List.map_append, List.countP_append]
  have h1 := regBlocksFrom_countP_parse env b c side k a 0
  have h2 := waypointsFrom_countP_parse env side k a 0
  have h3 := distTasksFrom_countP_parse env side k b 0
  have h4 : (([(GenCall.writeLayoutFile, env.writeLayoutFileRes),
      (GenCall.writeTokenFile, env.writeTokenFileRes),
      (GenCall.setLayout, env.setLayoutRes),
      (GenCall.libraRootKey, env.libraRootKeyRes)].map Prod.fst).countP
        (parsePred side k)) = 0 := by simp [parsePred, List.countP_cons]
  have h5 : (([(GenCall.genesis, env.genesisRes)].map Prod.fst).countP
      (parsePred side k)) = 0 := by simp [parsePred, List.countP_cons]
  have h6 : (([(GenCall.extractPrivateKey, env.extractPrivateKeyRes)].map Prod.fst).countP
      (parsePred side k)) = 0 := by simp [parsePred, List.countP_cons]
  rw [h2, h3, h4, h5, h6]
  split_ifs at h1 <;> omega

/-- C8: if either endpoint string of validator `k` fails to parse, the
genesis pipeline aborts with an error, and in the run's trace each of
validator `k`'s two endpoint strings was parsed at most once — the failure
is never retried. -/
theorem generateGenesis_malformed_addr_fatal (env : GenEnv)
    (vaultNodes validatorNodes fullnodeNodes : List KubeNode) (k : Nat)
    (hk : k < vaultNodes.length)
    (hbad : env.parseAddr (addrString (nodeAt validatorNodes k).internal_ip) = false ∨
            env.parseAddr (addrString (nodeAt fullnodeNodes k).internal_ip) = false) :
    ((generateGenesis env vaultNodes validatorNodes fullnodeNodes).2).isSome ∧
    ((generateGenesis env vaultNodes validatorNodes fullnodeNodes).1).countP
        (parsePred false k) ≤ 1 ∧
    ((generateGenesis env vaultNodes validatorNodes fullnodeNodes).1).countP
        (parsePred true k) ≤ 1 := by
  refine ⟨?_, ?_, ?_⟩
  · rw [generateGenesis]
    cases hv : env.parseAddr (addrString (nodeAt validatorNodes k).internal_ip) with
    | false =>
        apply seqCalls_isSome_of_mem_error _
          (GenCall.parseValidatorAddr k (addrString (nodeAt validatorNodes k).internal_ip))
          (Err.panicked parseFailMsg)
        apply mem_genPlan_of_mem_reg
        apply mem_regBlocksFrom_of_lt vaultNodes 0 k hk
        simp [registrationBlock, hv]
    | true =>
        have hf : env.parseAddr (addrString (nodeAt fullnodeNodes k).internal_ip) = false := by
          rcases hbad with h | h
          · rw [hv] at h; exact absurd h (by simp)
          · exact h
        apply seqCalls_isSome_of_mem_error _
          (GenCall.parseFullnodeAddr k (addrString (nodeAt fullnodeNodes k).internal_ip))
          (Err.panicked parseFailMsg)
        apply mem_genPlan_of_mem_reg
        apply mem_regBlocksFrom_of_lt vaultNodes 0 k hk
        simp [registrationBlock, hv, hf]
  · exact le_trans ((seqCalls_trace_le _).sublist.countP_le _)
      (genPlan_countP_parse env vaultNodes validatorNodes fullnodeNodes false k)
  · exact le_trans ((seqCalls_trace_le _).sublist.countP_le _)
      (genPlan_countP_parse env vaultNodes validatorNodes fullnodeNodes true k)

/-- `sampleGenEnv` whose address parser rejects validator node 3's
validator endpoint string. -/
def sampleGenEnvBadAddr : GenEnv :=
  { sampleGenEnv with
      parseAddr := fun s => !(s == addrString (sampleNode 3).internal_ip) }

/-- Witness for C8: with two vault nodes and validator node index 1 backed
by `sampleNode 3`, the rejected endpoint aborts the pipeline. -/
theorem generateGenesis_malformed_addr_fatal_witness :
    ((generateGenesis sampleGenEnvBadAddr [sampleNode 0, sampleNode 1]
        [sampleNode 2, sampleNode 3] [sampleNode 4, sampleNode 5]).2).isSome :=
  (generateGenesis_malformed_addr_fatal sampleGenEnvBadAddr
      [sampleNode 0, sampleNode 1] [sampleNode 2, sampleNode 3]
      [sampleNode 4, sampleNode 5] 1 (by decide) (Or.inl (by decide))).1

/-! ## The spawn layer (`spawn_validator_and_fullnode_set`, lines 156-335)

The function is a sequence of phases; inside a phase the `try_join_all`
fan-outs are linearised in index order (the program-order of the `.await`s
between phases is kept: vault allocation, lsr allocation, lsr instance
spawning, vault instance spawning, validator allocation, fullnode
allocation, vault initialization + genesis (only when vault nodes exist),
validator spawning, fullnode spawning). -/

/-- `ValidatorConfig` (from the `instance` module; its fields are exactly
the ones this file constructs at lines 275-283). -/
structure ValidatorConfig where
  num_validators : Nat
  num_fullnodes : Nat
  enable_lsr : Bool
  image_tag : String
  config_overrides : List String
  seed_peer_ip : String
  safety_rules_addr : Option String
  deriving DecidableEq, Repr

/-- `FullnodeConfig` (fields constructed at lines 305-312). -/
structure FullnodeConfig where
  fullnode_index : Nat
  num_fullnodes_per_validator : Nat
  num_validators : Nat
  image_tag : String
  config_overrides : List String
  seed_peer_ip : String
  deriving DecidableEq, Repr

/-- `LSRConfig` (fields constructed at lines 207-211). -/
structure LSRConfig where
  num_validators : Nat
  image_tag : String
  lsr_backend : String
  deriving DecidableEq, Repr

/-- `ApplicationConfig`; `VaultConfig` is an empty struct in the source, so
the `Vault` variant carries no payload here. -/
inductive ApplicationConfig where
  | Validator (c : ValidatorConfig)
  | Fullnode (c : FullnodeConfig)
  | Vault
  | LSR (c : LSRConfig)
  deriving DecidableEq, Repr

/-- `InstanceConfig`: a `ValidatorGroup` index plus the role payload. -/
structure InstanceConfig where
  validator_group : Nat
  application_config : ApplicationConfig
  deriving DecidableEq, Repr

/-- One operation of the spawn layer. `cleanData` records both the loop
iteration that issued it (`site`) and the node name passed to the scheduler;
`vaultInitAttempt` is one attempt of the retried `initialize_vault` call;
`genesisCall` embeds the operations of `generate_genesis`. -/
inductive SCall where
  | allocate (pod : PodName)
  | cleanData (site : PodName) (nodeName : String)
  | spawnInstance (cfg : InstanceConfig)
  | vaultInitAttempt (i : Nat) (attempt : Nat)
  | genesisCall (c : GenCall)
  deriving DecidableEq, Repr

/-- Results of the spawn layer's remote calls.  `vaultInitRes i a` is the
outcome of attempt `a` of `initialize_vault` for node `i` (only this
operation is attempt-indexed, because only it is retried in the source). -/
structure SEnv where
  allocateRes : PodName → Except Err KubeNode
  cleanDataRes : String → Except Err Unit
  spawnRes : InstanceConfig → Except Err Unit
  vaultInitRes : Nat → Nat → Except Err Unit
  genEnv : GenEnv

/-- A traced fallible computation of the spawn layer. -/
abbrev SRes (α : Type) : Type := List SCall × Except Err α

/-- Sequencing with `?`-propagation: the second stage runs only if the first
succeeded; traces concatenate. -/
def andThen {α β : Type} (x : SRes α) (f : α → SRes β) : SRes β :=
  match x with
  | (t, Except.error e) => (t, Except.error e)
  | (t, Except.ok a) => (t ++ (f a).1, (f a).2)

/-- Prepend a successfully spawned instance to the result list of the rest
of a spawn loop. -/
def consRes {α : Type} (a : α) : SRes (List α) → SRes (List α)
  | (t, Except.ok xs) => (t, Except.ok (a :: xs))
  | (t, Except.error e) => (t, Except.error e)

/-- `try_join_all` over `allocate_node` for a list of pod names (linearised;
the first failure aborts). -/
def allocAll (env : SEnv) : List PodName → SRes (List KubeNode)
  | [] => ([], Except.ok [])
  | p :: rest =>
      match env.allocateRes p with
      | Except.error e => ([SCall.allocate p], Except.error e)
      | Except.ok node =>
          match allocAll env rest with
          | (t, Except.ok ns) => (SCall.allocate p :: t, Except.ok (node :: ns))
          | (t, Except.error e) => (SCall.allocate p :: t, Except.error e)

/-- One instance-spawn task: optional `clean_data` on the node's name, then
`spawn_new_instance` with the fully resolved config. -/
def spawnOne (env : SEnv) (clean : Bool) (site : PodName) (nodeName : String)
    (cfg : InstanceConfig) : SRes InstanceConfig :=
  if clean then
    match env.cleanDataRes nodeName with
    | Except.error e => ([SCall.cleanData site nodeName], Except.error e)
    | Except.ok _ =>
        match env.spawnRes cfg with
        | Except.error e =>
            ([SCall.cleanData site nodeName, SCall.spawnInstance cfg], Except.error e)
        | Except.ok _ =>
            ([SCall.cleanData site nodeName, SCall.spawnInstance cfg], Except.ok cfg)
  else
    match env.spawnRes cfg with
    | Except.error e => ([SCall.spawnInstance cfg], Except.error e)
    | Except.ok _ => ([SCall.spawnInstance cfg], Except.ok cfg)

/-- An index-enumerated spawn fan-out over a node list (vault, lsr and
validator instance loops). -/
def spawnLoop (env : SEnv) (clean : Bool) (siteOf : Nat → PodName)
    (cfgOf : Nat → InstanceConfig) : Nat → List KubeNode → SRes (List InstanceConfig)
  | _, [] => ([], Except.ok [])
  | i, node :: rest =>
      andThen (spawnOne env clean (siteOf i) node.name (cfgOf i))
        (fun cfg => consRes cfg (spawnLoop env clean siteOf cfgOf (i + 1) rest))

/-- The fullnode spawn fan-out, enumerated over (validator index, fullnode
index) pairs exactly as the source's nested `flat_map`. -/
def spawnPairLoop (env : SEnv) (clean : Bool) (nameOf : Nat × Nat → String)
    (cfgOf : Nat × Nat → InstanceConfig) : List (Nat × Nat) → SRes (List InstanceConfig)
  | [] => ([], Except.ok [])
  | vf :: rest =>
      andThen (spawnOne env clean (PodName.fullnodePod vf.1 vf.2) (nameOf vf) (cfgOf vf))
        (fun cfg => consRes cfg (spawnPairLoop env clean nameOf cfgOf rest))

/-- Modelled from the spec (the retrier crate is outside `src/`): the fixed
delay of `fixed_retry_strategy(5000, 15)`, in milliseconds. -/
def retryDelayMs : Nat := 5000

/-- Modelled from the spec: the bounded attempt budget of
`fixed_retry_strategy(5000, 15)`. -/
def retryLimit : Nat := 15

/-- Modelled from the spec: `retry_async` with a fixed strategy — attempt
`f` with the given budget starting at attempt number `k`, `retryDelayMs`
apart, returning the attempt numbers made and the final outcome (the last
error once the budget is exhausted). -/
def retryAttemptsFrom (f : Nat → Except Err Unit) : Nat → Nat → List Nat × Except Err Unit
  | 0, _ => ([], Except.error (Err.remote "retry budget is zero"))
  | 1, k => ([k], f k)
  | n + 2, k =>
      match f k with
      | Except.ok _ => ([k], Except.ok ())
      | Except.error _ =>
          match retryAttemptsFrom f (n + 1) (k + 1) with
          | (t, r) => (k :: t, r)

/-- The vault-initialization fan-out (lines 245-253): one retried
`initialize_vault` per vault node, linearised in index order. -/
def vaultInitPhase (env : SEnv) : Nat → List KubeNode → SRes Unit
  | _, [] => ([], Except.ok ())
  | i, _ :: rest =>
      match retryAttemptsFrom (env.vaultInitRes i) retryLimit 0 with
      | (attempts, Except.error e) =>
          (attempts.map (SCall.vaultInitAttempt i), Except.error e)
      | (attempts, Except.ok _) =>
          match vaultInitPhase env (i + 1) rest with
          | (t, r) => (attempts.map (SCall.vaultInitAttempt i) ++ t, r)

/-- The call to `generate_genesis` (line 255), with its operations embedded
into the spawn trace. -/
def genesisPhase (env : SEnv) (vaultNodes validatorNodes fullnodeNodes : List KubeNode) :
    SRes Unit :=
  match generateGenesis env.genEnv vaultNodes validatorNodes fullnodeNodes with
  | (t, none) => (t.map SCall.genesisCall, Except.ok ())
  | (t, some e) => (t.map SCall.genesisCall, Except.error e)

/-- Lines 245-263: only when vault nodes exist, initialize every vault
(each with the bounded retry) and then run the genesis pipeline. -/
def initAndGenesisPhase (env : SEnv)
    (vaultNodes validatorNodes fullnodeNodes : List KubeNode) : SRes Unit :=
  if vaultNodes.isEmpty then ([], Except.ok ())
  else
    andThen (vaultInitPhase env 0 vaultNodes)
      (fun _ => genesisPhase env vaultNodes validatorNodes fullnodeNodes)

/-- The vault pod names allocated at lines 173-177. -/
def vaultPodNames (n : Nat) : List PodName :=
  (List.range n).map PodName.vaultPod

/-- The lsr pod names allocated at lines 198-202. -/
def lsrPodNames (n : Nat) : List PodName :=
  (List.range n).map PodName.lsrPod

/-- The validator pod names allocated at lines 231-235. -/
def validatorPodNames (n : Nat) : List PodName :=
  (List.range n).map PodName.validatorPod

/-- The (validator index, fullnode index) pairs of the source's nested
`flat_map` (lines 237-243 and 298-330), in iteration order. -/
def fnPairs (n fpv : Nat) : List (Nat × Nat) :=
  (List.range n).flatMap (fun v => (List.range fpv).map (fun f => (v, f)))

/-- The fullnode pod names allocated at lines 237-243. -/
def fullnodePodNames (n fpv : Nat) : List PodName :=
  (fnPairs n fpv).map (fun vf => PodName.fullnodePod vf.1 vf.2)

/-- The `LSRConfig` instance built at lines 207-211. -/
def lsrCfgOf (num_validators : Nat) (image_tag lsr_backend : String) (i : Nat) :
    InstanceConfig :=
  { validator_group := i,
    application_config := ApplicationConfig.LSR
      { num_validators := num_validators, image_tag := image_tag,
        lsr_backend := lsr_backend } }

/-- The vault `InstanceConfig` built at lines 182-190. -/
def vaultCfgOf (i : Nat) : InstanceConfig :=
  { validator_group := i, application_config := ApplicationConfig.Vault }

/-- The `ValidatorConfig` instance built at lines 265-295: the seed peer is
always validator node index 0; the signing proxy address is lsr node `i`
when the lsr tier is enabled, `none` otherwise. -/
def validatorCfgOf (num_validators num_fullnodes_per_validator : Nat)
    (enable_lsr : Bool) (image_tag : String) (config_overrides : List String)
    (validatorNodes lsrsNodes : List KubeNode) (i : Nat) : InstanceConfig :=
  { validator_group := i,
    application_config := ApplicationConfig.Validator
      { num_validators := num_validators,
        num_fullnodes := num_fullnodes_per_validator,
        enable_lsr := enable_lsr,
        image_tag := image_tag,
        config_overrides := config_overrides,
        seed_peer_ip := (nodeAt validatorNodes 0).internal_ip,
        safety_rules_addr :=
          if enable_lsr then some ((nodeAt lsrsNodes i).internal_ip) else none } }

/-- The `FullnodeConfig` instance built at lines 298-330: the seed peer is
the fullnode's own validator's node (`validator_nodes[validator_index]`). -/
def fullnodeCfgOf (num_validators num_fullnodes_per_validator : Nat)
    (image_tag : String) (config_overrides : List String)
    (validatorNodes : List KubeNode) (vf : Nat × Nat) : InstanceConfig :=
  { validator_group := vf.1,
    application_config := ApplicationConfig.Fullnode
      { fullnode_index := vf.2,
        num_fullnodes_per_validator := num_fullnodes_per_validator,
        num_validators := num_validators,
        image_tag := image_tag,
        config_overrides := config_overrides,
        seed_peer_ip := (nodeAt validatorNodes vf.1).internal_ip } }

/-- The value returned by `spawn_validator_and_fullnode_set`:
(validators, lsrs, vaults, fullnodes), each instance identified by its
`InstanceConfig`. -/
abbrev SpawnResult : Type :=
  List InstanceConfig × List InstanceConfig × List InstanceConfig × List InstanceConfig

/-- `spawn_validator_and_fullnode_set` (lines 156-335). -/
def spawnSet (env : SEnv) (num_validators num_fullnodes_per_validator : Nat)
    (enable_lsr : Bool) (lsr_backend image_tag : String)
    (config_overrides : List String) (clean_data : Bool) : SRes SpawnResult :=
  andThen (if enable_lsr ∧ lsr_backend = "vault" then
            allocAll env (vaultPodNames num_validators) else ([], Except.ok []))
    (fun vault_nodes =>
  andThen (if enable_lsr then allocAll env (lsrPodNames num_validators)
           else ([], Except.ok []))
    (fun lsrs_nodes =>
  andThen (spawnLoop env clean_data PodName.lsrPod
            (lsrCfgOf num_validators image_tag lsr_backend) 0 lsrs_nodes)
    (fun lsrs =>
  andThen (spawnLoop env clean_data PodName.vaultPod vaultCfgOf 0 vault_nodes)
    (fun vaults =>
  andThen (allocAll env (validatorPodNames num_validators))
    (fun validator_nodes =>
  andThen (allocAll env (fullnodePodNames num_validators num_fullnodes_per_validator))
    (fun fullnode_nodes =>
  andThen (initAndGenesisPhase env vault_nodes validator_nodes fullnode_nodes)
    (fun _ =>
  andThen (spawnLoop env clean_data PodName.validatorPod
            (validatorCfgOf num_validators num_fullnodes_per_validator enable_lsr
              image_tag config_overrides validator_nodes lsrs_nodes) 0 validator_nodes)
    (fun validators =>
  andThen (spawnPairLoop env clean_data
            (fun vf => (nodeAt fullnode_nodes
              (vf.1 * num_fullnodes_per_validator + vf.2)).name)
            (fullnodeCfgOf num_validators num_fullnodes_per_validator image_tag
              config_overrides validator_nodes)
            (fnPairs num_validators num_fullnodes_per_validator))
    (fun fullnodes =>
  ([], Except.ok (validators, lsrs, vaults, fullnodes)))))))))))

/-! ### The fully successful spawn run -/

/-- The operations of one successful instance-spawn task. -/
def spawnOneCalls (clean : Bool) (site : PodName) (nodeName : String)
    (cfg : InstanceConfig) : List SCall :=
  if clean then [SCall.cleanData site nodeName, SCall.spawnInstance cfg]
  else [SCall.spawnInstance cfg]

/-- The operations of a successful `spawnLoop`. -/
def spawnLoopCalls (clean : Bool) (siteOf : Nat → PodName)
    (cfgOf : Nat → InstanceConfig) : Nat → List KubeNode → List SCall
  | _, [] => []
  | i, node :: rest =>
      spawnOneCalls clean (siteOf i) node.name (cfgOf i) ++
        spawnLoopCalls clean siteOf cfgOf (i + 1) rest

/-- The operations of a successful `spawnPairLoop`. -/
def spawnPairLoopCalls (clean : Bool) (nameOf : Nat × Nat → String)
    (cfgOf : Nat × Nat → InstanceConfig) : List (Nat × Nat) → List SCall
  | [] => []
  | vf :: rest =>
      spawnOneCalls clean (PodName.fullnodePod vf.1 vf.2) (nameOf vf) (cfgOf vf) ++
        spawnPairLoopCalls clean nameOf cfgOf rest

theorem allocAll_ok {env : SEnv} {nodeOf : PodName → KubeNode}
    (h : ∀ p, env.allocateRes p = Except.ok (nodeOf p)) :
    ∀ names, allocAll env names = (names.map SCall.allocate, Except.ok (names.map nodeOf))
  | [] => rfl
  | p :: rest => by
      simp [allocAll, h p, allocAll_ok h rest]

theorem spawnOne_ok {env : SEnv}
    (hc : ∀ s, env.cleanDataRes s = Except.ok ())
    (hs : ∀ cfg, env.spawnRes cfg = Except.ok ())
    (clean : Bool) (site : PodName) (nodeName : String) (cfg : InstanceConfig) :
    spawnOne env clean site nodeName cfg =
      (spawnOneCalls clean site nodeName cfg, Except.ok cfg) := by
  cases clean <;> simp [spawnOne, spawnOneCalls, hc, hs]

theorem spawnLoop_ok {env : SEnv}
    (hc : ∀ s, env.cleanDataRes s = Except.ok ())
    (hs : ∀ cfg, env.spawnRes cfg = Except.ok ())
    (clean : Bool) (siteOf : Nat → PodName) (cfgOf : Nat → InstanceConfig) :
    ∀ (l : List KubeNode) (i : Nat),
      spawnLoop env clean siteOf cfgOf i l =
        (spawnLoopCalls clean siteOf cfgOf i l,
         Except.ok ((List.range' i l.length).map cfgOf))
  | [], i => by simp [spawnLoop, spawnLoopCalls]
  | node :: rest, i => by
      simp [spawnLoop, spawnLoopCalls, spawnOne_ok hc hs, andThen,
        spawnLoop_ok hc hs clean siteOf cfgOf rest (i + 1), consRes, List.range'_succ]

theorem spawnPairLoop_ok {env : SEnv}
    (hc : ∀ s, env.cleanDataRes s = Except.ok ())
    (hs : ∀ cfg, env.spawnRes cfg = Except.ok ())
    (clean : Bool) (nameOf : Nat × Nat → String) (cfgOf : Nat × Nat → InstanceConfig) :
    ∀ pairs : List (Nat × Nat),
      spawnPairLoop env clean nameOf cfgOf pairs =
        (spawnPairLoopCalls clean nameOf cfgOf pairs, Except.ok (pairs.map cfgOf))
  | [] => by simp [spawnPairLoop, spawnPairLoopCalls]
  | vf :: rest => by
      simp [spawnPairLoop, spawnPairLoopCalls, spawnOne_ok hc hs, andThen,
        spawnPairLoop_ok hc hs clean nameOf cfgOf rest, consRes]

theorem retryAttemptsFrom_first_ok (f : Nat → Except Err Unit) (k : Nat)
    (hf : f k = Except.ok ()) :
    ∀ fuel, 1 ≤ fuel → retryAttemptsFrom f fuel k = ([k], Except.ok ())
  | 0, h => absurd h (by omega)
  | 1, _ => by simp [retryAttemptsFrom, hf]
  | n + 2, _ => by simp [retryAttemptsFrom, hf]

theorem vaultInitPhase_ok {env : SEnv}
    (hv : ∀ i, env.vaultInitRes i 0 = Except.ok ()) :
    ∀ (l : List KubeNode) (i : Nat),
      vaultInitPhase env i l =
        ((List.range' i l.length).map (fun j => SCall.vaultInitAttempt j 0), Except.ok ())
  | [], i => by simp [vaultInitPhase]
  | node :: rest, i => by
      simp [vaultInitPhase, retryAttemptsFrom_first_ok _ _ (hv i) retryLimit (by decide),
        vaultInitPhase_ok hv rest (i + 1), List.range'_succ]

theorem genesisPhase_ok {env : SEnv} (hg : GenEnvOk env.genEnv)
    (a b c : List KubeNode) :
    genesisPhase env a b c =
      ((genSuccessTrace env.genEnv a b c).map SCall.genesisCall, Except.ok ()) := by
  simp [genesisPhase, generateGenesis_allOk hg]

/-- The operations of a successful secret-tier initialization plus genesis
phase. -/
def initGenesisCalls (genv : GenEnv) (a b c : List KubeNode) : List SCall :=
  if a.isEmpty then []
  else
    (List.range' 0 a.length).map (fun j => SCall.vaultInitAttempt j 0) ++
      (genSuccessTrace genv a b c).map SCall.genesisCall

theorem initAndGenesisPhase_ok {env : SEnv}
    (hv : ∀ i, env.vaultInitRes i 0 = Except.ok ())
    (hg : GenEnvOk env.genEnv) (a b c : List KubeNode) :
    initAndGenesisPhase env a b c =
      (initGenesisCalls env.genEnv a b c, Except.ok ()) := by
  by_cases he : a.isEmpty <;>
    simp [initAndGenesisPhase, initGenesisCalls, he, vaultInitPhase_ok hv,
      genesisPhase_ok hg, andThen]

/-- The vault node list of a successful run. -/
def vaultNodesOf (nodeOf : PodName → KubeNode) (n : Nat) (el : Bool) (backend : String) :
    List KubeNode :=
  if el ∧ backend = "vault" then (vaultPodNames n).map nodeOf else []

/-- The lsr node list of a successful run. -/
def lsrNodesOf (nodeOf : PodName → KubeNode) (n : Nat) (el : Bool) : List KubeNode :=
  if el then (lsrPodNames n).map nodeOf else []

/-- The validator node list of a successful run. -/
def validatorNodesOf (nodeOf : PodName → KubeNode) (n : Nat) : List KubeNode :=
  (validatorPodNames n).map nodeOf

/-- The fullnode node list of a successful run. -/
def fullnodeNodesOf (nodeOf : PodName → KubeNode) (n fpv : Nat) : List KubeNode :=
  (fullnodePodNames n fpv).map nodeOf

/-- The (validators, lsrs, vaults, fullnodes) result of a successful run. -/
def spawnSuccessResult (nodeOf : PodName → KubeNode) (n fpv : Nat) (el : Bool)
    (backend tag : String) (ov : List String) : SpawnResult :=
  ((List.range' 0 (validatorNodesOf nodeOf n).length).map
     (validatorCfgOf n fpv el tag ov (validatorNodesOf nodeOf n) (lsrNodesOf nodeOf n el)),
   (List.range' 0 (lsrNodesOf nodeOf n el).length).map (lsrCfgOf n tag backend),
   (List.range' 0 (vaultNodesOf nodeOf n el backend).length).map vaultCfgOf,
   (fnPairs n fpv).map (fullnodeCfgOf n fpv tag ov (validatorNodesOf nodeOf n)))

/-- The complete trace of a successful spawn run. -/
def spawnSuccessTrace (genv : GenEnv) (nodeOf : PodName → KubeNode) (n fpv : Nat)
    (el : Bool) (backend tag : String) (ov : List String) (clean : Bool) : List SCall :=
  (if el ∧ backend = "vault" then (vaultPodNames n).map SCall.allocate else []) ++
  (if el then (lsrPodNames n).map SCall.allocate else []) ++
  spawnLoopCalls clean PodName.lsrPod (lsrCfgOf n tag backend) 0 (lsrNodesOf nodeOf n el) ++
  spawnLoopCalls clean PodName.vaultPod vaultCfgOf 0 (vaultNodesOf nodeOf n el backend) ++
  (validatorPodNames n).map SCall.allocate ++
  (fullnodePodNames n fpv).map SCall.allocate ++
  initGenesisCalls genv (vaultNodesOf nodeOf n el backend)
    (validatorNodesOf nodeOf n) (fullnodeNodesOf nodeOf n fpv) ++
  spawnLoopCalls clean PodName.validatorPod
    (validatorCfgOf n fpv el tag ov (validatorNodesOf nodeOf n) (lsrNodesOf nodeOf n el))
    0 (validatorNodesOf nodeOf n) ++
  spawnPairLoopCalls clean
    (fun vf => (nodeAt (fullnodeNodesOf nodeOf n fpv) (vf.1 * fpv + vf.2)).name)
    (fullnodeCfgOf n fpv tag ov (validatorNodesOf nodeOf n)) (fnPairs n fpv)

/-- On an environment in which every remote call succeeds (and every vault
initialization succeeds at its first attempt), `spawn_validator_and_fullnode_set`
succeeds with the explicit trace and result above. -/
theorem spawnSet_ok (env : SEnv) (nodeOf : PodName → KubeNode) (n fpv : Nat)
    (el : Bool) (backend tag : String) (ov : List String) (clean : Bool)
    (ha : ∀ p, env.allocateRes p = Except.ok (nodeOf p))
    (hc : ∀ s, env.cleanDataRes s = Except.ok ())
    (hs : ∀ cfg, env.spawnRes cfg = Except.ok ())
    (hv : ∀ i, env.vaultInitRes i 0 = Except.ok ())
    (hg : GenEnvOk env.genEnv) :
    spawnSet env n fpv el backend tag ov clean =
      (spawnSuccessTrace env.genEnv nodeOf n fpv el backend tag ov clean,
       Except.ok (spawnSuccessResult nodeOf n fpv el backend tag ov)) := by
  rw [spawnSet]
  by_cases h1 : (el : Prop) ∧ backend = "vault" <;> by_cases h2 : (el : Prop) <;>
    simp only [h1, h2, if_true, if_false, iff_true, iff_false, if_pos, if_neg,
      not_false_iff, allocAll_ok ha, spawnLoop_ok hc hs, spawnPairLoop_ok hc hs,
      initAndGenesisPhase_ok hv hg, andThen, spawnSuccessTrace, spawnSuccessResult,
      vaultNodesOf, lsrNodesOf, validatorNodesOf, fullnodeNodesOf] <;>
    simp_all [List.append_assoc]

/-! ### C7: behaviour with the secret tier disabled -/

theorem mem_andThen {α β : Type} {x : SRes α} {f : α → SRes β} {c : SCall}
    (h : c ∈ (andThen x f).1) :
    c ∈ x.1 ∨ ∃ a, x.2 = Except.ok a ∧ c ∈ (f a).1 := by
  obtain ⟨t, r⟩ := x
  cases r with
  | error e => exact Or.inl h
  | ok a =>
      rcases List.mem_append.mp (by simpa [andThen] using h) with h1 | h1
      · exact Or.inl h1
      · exact Or.inr ⟨a, rfl, h1⟩

theorem allocAll_calls {env : SEnv} :
    ∀ names : List PodName, ∀ c ∈ (allocAll env names).1, ∃ p ∈ names, c = SCall.allocate p
  | [], c, hc => absurd hc (List.not_mem_nil c)
  | p :: rest, c, hc => by
      cases hr : env.allocateRes p with
      | error e =>
          rw [allocAll, hr] at hc
          simp only [List.mem_singleton] at hc
          exact ⟨p, List.mem_cons_self p rest, hc⟩
      | ok node =>
          rw [allocAll, hr] at hc
          rcases hrec : allocAll env rest with ⟨t, r⟩
          rw [hrec] at hc
          cases r with
          | ok ns =>
              rcases List.mem_cons.mp hc with h1 | h1
              · exact ⟨p, List.mem_cons_self p rest, h1⟩
              · obtain ⟨q, hq, hcq⟩ := allocAll_calls rest c (by rw [hrec]; exact h1)
                exact ⟨q, List.mem_cons_of_mem p hq, hcq⟩
          | error e =>
              rcases List.mem_cons.mp hc with h1 | h1
              · exact ⟨p, List.mem_cons_self p rest, h1⟩
              · obtain ⟨q, hq, hcq⟩ := allocAll_calls rest c (by rw [hrec]; exact h1)
                exact ⟨q, List.mem_cons_of_mem p hq, hcq⟩

theorem spawnOne_calls {env : SEnv} {clean : Bool} {site : PodName} {nodeName : String}
    {cfg : InstanceConfig} :
    ∀ c ∈ (spawnOne env clean site nodeName cfg).1,
      c = SCall.cleanData site nodeName ∨ c = SCall.spawnInstance cfg := by
  intro c hc
  cases clean <;>
    [cases hs : env.spawnRes cfg;
     skip] <;>
    simp_all [spawnOne]
  cases hcd : env.cleanDataRes nodeName <;> cases hs : env.spawnRes cfg <;>
    simp_all [spawnOne]

theorem consRes_fst {α : Type} (a : α) (r : SRes (List α)) : (consRes a r).1 = r.1 := by
  obtain ⟨t, res⟩ := r
  cases res <;> rfl

theorem spawnLoop_calls {env : SEnv} {clean : Bool} {siteOf : Nat → PodName}
    {cfgOf : Nat → InstanceConfig} :
    ∀ (l : List KubeNode) (i : Nat), ∀ c ∈ (spawnLoop env clean siteOf cfgOf i l).1,
      (∃ j nm, c = SCall.cleanData (siteOf j) nm) ∨ (∃ j, c = SCall.spawnInstance (cfgOf j))
  | [], _, c, hc => absurd hc (List.not_mem_nil c)
  | node :: rest, i, c, hc => by
      rcases mem_andThen hc with h | ⟨a, _, h⟩
      · rcases spawnOne_calls c h with h1 | h1
        · exact Or.inl ⟨i, node.name, h1⟩
        · exact Or.inr ⟨i, h1⟩
      · rw [consRes_fst] at h
        exact spawnLoop_calls rest (i + 1) c h

theorem spawnPairLoop_calls {env : SEnv} {clean : Bool} {nameOf : Nat × Nat → String}
    {cfgOf : Nat × Nat → InstanceConfig} :
    ∀ pairs : List (Nat × Nat), ∀ c ∈ (spawnPairLoop env clean nameOf cfgOf pairs).1,
      (∃ (vf : Nat × Nat) (nm : String),
        c = SCall.cleanData (PodName.fullnodePod vf.1 vf.2) nm) ∨
      (∃ vf, c = SCall.spawnInstance (cfgOf vf))
  | [], c, hc => absurd hc (List.not_mem_nil c)
  | vf :: rest, c, hc => by
      rcases mem_andThen hc with h | ⟨a, _, h⟩
      · rcases spawnOne_calls c h with h1 | h1
        · exact Or.inl ⟨vf, nameOf vf, h1⟩
        · exact Or.inr ⟨vf, h1⟩
      · rw [consRes_fst] at h
        exact spawnPairLoop_calls rest c h

/-- C7: with the secret/signing tier disabled (`enable_lsr = false`), for
ANY environment, the run allocates no vault node, performs no
`initialize_vault` attempt and no `generate_genesis` operation, and every
validator instance it spawns carries `safety_rules_addr = none`. -/
theorem spawnSet_lsr_disabled (env : SEnv) (n fpv : Nat) (backend tag : String)
    (ov : List String) (clean : Bool) :
    (∀ c ∈ (spawnSet env n fpv false backend tag ov clean).1,
      (∀ i, c ≠ SCall.allocate (PodName.vaultPod i)) ∧
      (∀ i a, c ≠ SCall.vaultInitAttempt i a) ∧
      (∀ g, c ≠ SCall.genesisCall g)) ∧
    (∀ cfg, SCall.spawnInstance cfg ∈ (spawnSet env n fpv false backend tag ov clean).1 →
      ∀ vc, cfg.application_config = ApplicationConfig.Validator vc →
        vc.safety_rules_addr = none) := by
  have hred : spawnSet env n fpv false backend tag ov clean =
      andThen (allocAll env (validatorPodNames n)) (fun validator_nodes =>
      andThen (allocAll env (fullnodePodNames n fpv)) (fun fullnode_nodes =>
      andThen (spawnLoop env clean PodName.validatorPod
                (validatorCfgOf n fpv false tag ov validator_nodes []) 0 validator_nodes)
        (fun validators =>
      andThen (spawnPairLoop env clean
                (fun vf => (nodeAt fullnode_nodes (vf.1 * fpv + vf.2)).name)
                (fullnodeCfgOf n fpv tag ov validator_nodes) (fnPairs n fpv))
        (fun fullnodes =>
      ([], Except.ok (validators, [], [], fullnodes)))))) := rfl
  have hmem : ∀ c ∈ (spawnSet env n fpv false backend tag ov clean).1,
      (∃ p, (p ∈ validatorPodNames n ∨ p ∈ fullnodePodNames n fpv) ∧
        c = SCall.allocate p) ∨
      (∃ site nm, c = SCall.cleanData site nm) ∨
      (∃ vnodes j, c = SCall.spawnInstance
        (validatorCfgOf n fpv false tag ov vnodes [] j)) ∨
      (∃ vnodes vf, c = SCall.spawnInstance (fullnodeCfgOf n fpv tag ov vnodes vf)) := by
    intro c hc
    rw [hred] at hc
    rcases mem_andThen hc with h | ⟨vnodes, _, h⟩
    · obtain ⟨p, hp, hcp⟩ := allocAll_calls _ c h
      exact Or.inl ⟨p, Or.inl hp, hcp⟩
    rcases mem_andThen h with h | ⟨fnodes, _, h⟩
    · obtain ⟨p, hp, hcp⟩ := allocAll_calls _ c h
      exact Or.inl ⟨p, Or.inr hp, hcp⟩
    rcases mem_andThen h with h | ⟨validators, _, h⟩
    · rcases spawnLoop_calls _ _ c h with ⟨j, nm, h1⟩ | ⟨j, h1⟩
      · exact Or.inr (Or.inl ⟨_, nm, h1⟩)
      · exact Or.inr (Or.inr (Or.inl ⟨vnodes, j, h1⟩))
    rcases mem_andThen h with h | ⟨fullnodes, _, h⟩
    · rcases spawnPairLoop_calls _ c h with ⟨vf, nm, h1⟩ | ⟨vf, h1⟩
      · exact Or.inr (Or.inl ⟨_, nm, h1⟩)
      · exact Or.inr (Or.inr (Or.inr ⟨vnodes, vf, h1⟩))
    · exact absurd h (List.not_mem_nil c)
  constructor
  · intro c hc
    rcases hmem c hc with ⟨p, hp, rfl⟩ | ⟨site, nm, rfl⟩ | ⟨vnodes, j, rfl⟩ |
      ⟨vnodes, vf, rfl⟩
    · refine ⟨?_, by simp, by simp⟩
      intro i heq
      have hpv : p = PodName.vaultPod i := by injection heq
      subst hpv
      rcases hp with hp | hp
      · simp [validatorPodNames] at hp
      · simp [fullnodePodNames] at hp
    · exact ⟨by simp, by simp, by simp⟩
    · exact ⟨by simp, by simp, by simp⟩
    · exact ⟨by simp, by simp, by simp⟩
  · intro cfg hc vc happ
    rcases hmem _ hc with ⟨p, _, h1⟩ | ⟨site, nm, h1⟩ | ⟨vnodes, j, h1⟩ | ⟨vnodes, vf, h1⟩
    · exact absurd h1 (by simp)
    · exact absurd h1 (by simp)
    · have hcfg : cfg = validatorCfgOf n fpv false tag ov vnodes [] j := by injection h1
      subst hcfg
      simp only [validatorCfgOf] at happ
      cases happ
      simp
    · have hcfg : cfg = fullnodeCfgOf n fpv tag ov vnodes vf := by injection h1
      subst hcfg
      simp [fullnodeCfgOf] at happ

/-- A node map with distinct addresses per pod, used by witnesses. -/
def sampleNodeOf : PodName → KubeNode
  | PodName.vaultPod i => { name := "vault-" ++ toString i, internal_ip := "10.2.0." ++ toString i }
  | PodName.lsrPod i => { name := "lsr-" ++ toString i, internal_ip := "10.3.0." ++ toString i }
  | PodName.validatorPod i =>
      { name := "val-" ++ toString i, internal_ip := "10.1.0." ++ toString i }
  | PodName.fullnodePod v f =>
      { name := "fn-" ++ toString v ++ "-" ++ toString f,
        internal_ip := "10.4." ++ toString v ++ "." ++ toString f }

/-- A concrete all-successful spawn environment for witnesses. -/
def sampleSEnv : SEnv where
  allocateRes := fun p => Except.ok (sampleNodeOf p)
  cleanDataRes := fun _ => Except.ok ()
  spawnRes := fun _ => Except.ok ()
  vaultInitRes := fun _ _ => Except.ok ()
  genEnv := sampleGenEnv

/-- The validator instance config of the one-validator disabled-tier
witness run. -/
def sampleDisabledValidatorCfg : InstanceConfig :=
  validatorCfgOf 1 1 false "t" [] ((validatorPodNames 1).map sampleNodeOf) [] 0

/-- Its `ValidatorConfig` payload. -/
def sampleDisabledVC : ValidatorConfig :=
  { num_validators := 1, num_fullnodes := 1, enable_lsr := false, image_tag := "t",
    config_overrides := [],
    seed_peer_ip := (nodeAt ((validatorPodNames 1).map sampleNodeOf) 0).internal_ip,
    safety_rules_addr := none }

/-- Witness for C7: in a concrete disabled-tier run, the first trace event
is not a vault allocation and the spawned validator has no signing-proxy
address. -/
theorem spawnSet_lsr_disabled_witness :
    (∀ i, SCall.allocate (PodName.validatorPod 0) ≠ SCall.allocate (PodName.vaultPod i)) ∧
    sampleDisabledVC.safety_rules_addr = none :=
  ⟨((spawnSet_lsr_disabled sampleSEnv 1 1 "vault" "t" [] false).1
      (SCall.allocate (PodName.validatorPod 0)) (by decide)).1,
   (spawnSet_lsr_disabled sampleSEnv 1 1 "vault" "t" [] false).2
      sampleDisabledValidatorCfg (by decide) sampleDisabledVC rfl⟩

/-! ### C3: seed-peer selection -/

theorem nodeAt_validatorNodesOf (nodeOf : PodName → KubeNode) (n j : Nat) (hj : j < n) :
    nodeAt (validatorNodesOf nodeOf n) j = nodeOf (PodName.validatorPod j) := by
  simp [nodeAt, validatorNodesOf, validatorPodNames,
    List.getD_eq_getElem?_getD, List.getElem?_map, List.getElem?_range, hj]

theorem mem_fnPairs {vf : Nat × Nat} {n fpv : Nat} (h : vf ∈ fnPairs n fpv) :
    vf.1 < n ∧ vf.2 < fpv := by
  simp only [fnPairs, List.mem_flatMap, List.mem_map, List.mem_range] at h
  obtain ⟨v, hv, f, hf, rfl⟩ := h
  exact ⟨hv, hf⟩

/-- The seed-peer addresses of the spawned fullnode instances, in spawn
order. -/
def fullnodeSeedIps (r : SRes SpawnResult) : List String :=
  match r.2 with
  | Except.ok res => res.2.2.2.filterMap (fun cfg =>
      match cfg.application_config with
      | ApplicationConfig.Fullnode fc => some fc.seed_peer_ip
      | _ => none)
  | Except.error _ => []

/-- Counterexample to C3 as stated: in a two-validator run, the fullnode of
validator 1 is spawned with validator 1's address as seed peer, not
validator 0's. -/
theorem seed_peer_claim_counterexample :
    fullnodeSeedIps (spawnSet sampleSEnv 2 1 false "vault" "t" [] false) =
      ["10.1.0.0", "10.1.0.1"] ∧
    (sampleNodeOf (PodName.validatorPod 0)).internal_ip = "10.1.0.0" ∧
    ("10.1.0.1" : String) ≠ "10.1.0.0" :=
  ⟨by decide, by decide, by decide⟩

/-- C3 (amended): on a successful run, every validator's seed peer is
validator node 0's internal address, while every fullnode's seed peer is
the internal address of its OWN validator's node (validator index =
the instance's `validator_group`), regardless of spawn order. -/
theorem spawnSet_seed_peers (env : SEnv) (nodeOf : PodName → KubeNode)
    (n fpv : Nat) (el : Bool) (backend tag : String) (ov : List String) (clean : Bool)
    (ha : ∀ p, env.allocateRes p = Except.ok (nodeOf p))
    (hc : ∀ s, env.cleanDataRes s = Except.ok ())
    (hs : ∀ cfg, env.spawnRes cfg = Except.ok ())
    (hv : ∀ i, env.vaultInitRes i 0 = Except.ok ())
    (hg : GenEnvOk env.genEnv) :
    ∃ vs ls vas fs,
      (spawnSet env n fpv el backend tag ov clean).2 = Except.ok (vs, ls, vas, fs) ∧
      (∀ cfg ∈ vs, ∀ vc, cfg.application_config = ApplicationConfig.Validator vc →
        vc.seed_peer_ip = (nodeOf (PodName.validatorPod 0)).internal_ip) ∧
      (∀ cfg ∈ fs, ∀ fc, cfg.application_config = ApplicationConfig.Fullnode fc →
        fc.seed_peer_ip =
          (nodeOf (PodName.validatorPod cfg.validator_group)).internal_ip) := by
  rw [spawnSet_ok env nodeOf n fpv el backend tag ov clean ha hc hs hv hg]
  refine ⟨_, _, _, _, rfl, ?_, ?_⟩
  · intro cfg hcfg vc happ
    simp only [spawnSuccessResult, List.mem_map, List.mem_range'_1] at hcfg
    obtain ⟨j, hj, rfl⟩ := hcfg
    have hlen : (validatorNodesOf nodeOf n).length = n := by
      simp [validatorNodesOf, validatorPodNames]
    rw [hlen] at hj
    have hn : 0 < n := by omega
    simp only [validatorCfgOf] at happ
    cases happ
    simp only []
    rw [nodeAt_validatorNodesOf nodeOf n 0 hn]
  · intro cfg hcfg fc happ
    simp only [spawnSuccessResult, List.mem_map] at hcfg
    obtain ⟨vf, hvf, rfl⟩ := hcfg
    have hv1 : vf.1 < n := (mem_fnPairs hvf).1
    simp only [fullnodeCfgOf] at happ
    cases happ
    simp only [fullnodeCfgOf]
    rw [nodeAt_validatorNodesOf nodeOf n vf.1 hv1]

/-- Witness for the amended C3: the two-validator all-successful run. -/
theorem spawnSet_seed_peers_witness :
    ∃ vs ls vas fs,
      (spawnSet sampleSEnv 2 1 true "vault" "t" [] false).2 = Except.ok (vs, ls, vas, fs) ∧
      (∀ cfg ∈ vs, ∀ vc, cfg.application_config = ApplicationConfig.Validator vc →
        vc.seed_peer_ip = (sampleNodeOf (PodName.validatorPod 0)).internal_ip) ∧
      (∀ cfg ∈ fs, ∀ fc, cfg.application_config = ApplicationConfig.Fullnode fc →
        fc.seed_peer_ip =
          (sampleNodeOf (PodName.validatorPod cfg.validator_group)).internal_ip) :=
  spawnSet_seed_peers sampleSEnv sampleNodeOf 2 1 true "vault" "t" [] false
    (fun _ => rfl) (fun _ => rfl) (fun _ => rfl) (fun _ => rfl) sampleGenEnv_ok

/-! ### C9: configuration overrides are passed through verbatim -/

/-- C9: `cfg_overrides` is the single default entry followed by the
caller's `cfg` entries verbatim, in order and without deduplication (it is
a plain list concatenation), and on a successful run this exact sequence is
the `config_overrides` of every spawned validator and fullnode instance. -/
theorem cfg_overrides_verbatim (p : ClusterBuilderParams) (env : SEnv)
    (nodeOf : PodName → KubeNode) (tag : String) (clean : Bool)
    (ha : ∀ q, env.allocateRes q = Except.ok (nodeOf q))
    (hc : ∀ s, env.cleanDataRes s = Except.ok ())
    (hs : ∀ cfg, env.spawnRes cfg = Except.ok ())
    (hv : ∀ i, env.vaultInitRes i 0 = Except.ok ())
    (hg : GenEnvOk env.genEnv) :
    p.cfg_overrides = ["prune_window=50000"] ++ p.cfg ∧
    ∃ vs ls vas fs,
      (spawnSet env p.num_validators p.fullnodes_per_validator p.enable_lsr_value
        p.lsr_backend tag p.cfg_overrides clean).2 = Except.ok (vs, ls, vas, fs) ∧
      (∀ cfg ∈ vs, ∀ vc, cfg.application_config = ApplicationConfig.Validator vc →
        vc.config_overrides = p.cfg_overrides) ∧
      (∀ cfg ∈ fs, ∀ fc, cfg.application_config = ApplicationConfig.Fullnode fc →
        fc.config_overrides = p.cfg_overrides) := by
  refine ⟨rfl, ?_⟩
  rw [spawnSet_ok env nodeOf p.num_validators p.fullnodes_per_validator
    p.enable_lsr_value p.lsr_backend tag p.cfg_overrides clean ha hc hs hv hg]
  refine ⟨_, _, _, _, rfl, ?_, ?_⟩
  · intro cfg hcfg vc happ
    simp only [spawnSuccessResult, List.mem_map] at hcfg
    obtain ⟨j, _, rfl⟩ := hcfg
    simp only [validatorCfgOf] at happ
    cases happ
    rfl
  · intro cfg hcfg fc happ
    simp only [spawnSuccessResult, List.mem_map] at hcfg
    obtain ⟨vf, _, rfl⟩ := hcfg
    simp only [fullnodeCfgOf] at happ
    cases happ
    rfl

/-- Witness for C9 at a concrete parameter set with a repeated key in the
caller overrides. -/
theorem cfg_overrides_verbatim_witness :
    ({ fullnodes_per_validator := 1, cfg := ["a=1", "a=2"], num_validators := 1,
       enable_lsr := some false, lsr_backend := "vault" } :
        ClusterBuilderParams).cfg_overrides =
      ["prune_window=50000"] ++ ["a=1", "a=2"] :=
  (cfg_overrides_verbatim
    { fullnodes_per_validator := 1, cfg := ["a=1", "a=2"], num_validators := 1,
      enable_lsr := some false, lsr_backend := "vault" }
    sampleSEnv sampleNodeOf "t" false
    (fun _ => rfl) (fun _ => rfl) (fun _ => rfl) (fun _ => rfl) sampleGenEnv_ok).1

/-! ### C10: the secret/signing tier is enabled by default -/

/-- C10: when the `enable_lsr` option is not supplied, `enable_lsr()`
returns `true`, and consequently (with the default vault backend and at
least one validator) a successful bootstrap allocates the secret tier and
runs the genesis pipeline. -/
theorem enable_lsr_default (p : ClusterBuilderParams) (hp : p.enable_lsr = none)
    (env : SEnv) (nodeOf : PodName → KubeNode) (tag : String) (clean : Bool)
    (hb : p.lsr_backend = "vault") (hn : 0 < p.num_validators)
    (ha : ∀ q, env.allocateRes q = Except.ok (nodeOf q))
    (hc : ∀ s, env.cleanDataRes s = Except.ok ())
    (hs : ∀ cfg, env.spawnRes cfg = Except.ok ())
    (hv : ∀ i, env.vaultInitRes i 0 = Except.ok ())
    (hg : GenEnvOk env.genEnv) :
    p.enable_lsr_value = true ∧
    SCall.allocate (PodName.vaultPod 0) ∈
      (spawnSet env p.num_validators p.fullnodes_per_validator p.enable_lsr_value
        p.lsr_backend tag p.cfg_overrides clean).1 ∧
    SCall.genesisCall GenCall.setLayout ∈
      (spawnSet env p.num_validators p.fullnodes_per_validator p.enable_lsr_value
        p.lsr_backend tag p.cfg_overrides clean).1 := by
  have hval : p.enable_lsr_value = true := by
    rw [ClusterBuilderParams.enable_lsr_value, hp]
    rfl
  refine ⟨hval, ?_, ?_⟩ <;>
    rw [spawnSet_ok env nodeOf p.num_validators p.fullnodes_per_validator
      p.enable_lsr_value p.lsr_backend tag p.cfg_overrides clean ha hc hs hv hg] <;>
    rw [spawnSuccessTrace, hval, hb]
  · apply List.mem_append_left
    apply List.mem_append_left
    apply List.mem_append_left
    apply List.mem_append_left
    apply List.mem_append_left
    apply List.mem_append_left
    apply List.mem_append_left
    apply List.mem_append_left
    simp [vaultPodNames, hn]
  · apply List.mem_append_left
    apply List.mem_append_left
    apply List.mem_append_right
    have hne : (vaultNodesOf nodeOf p.num_validators true "vault").isEmpty = false := by
      rw [vaultNodesOf, if_pos (And.intro rfl rfl), List.isEmpty_eq_false]
      simp [vaultPodNames, List.range_eq_nil]
      omega
    simp only [initGenesisCalls, hne, Bool.false_eq_true, if_false]
    apply List.mem_append_right
    apply List.mem_map_of_mem
    rw [genSuccessTrace]
    apply List.mem_append_left
    apply List.mem_append_left
    apply List.mem_append_left
    apply List.mem_append_left
    apply List.mem_append_left
    simp

/-- Witness for C10: the defaulted option enables the tier on a concrete
one-validator run. -/
theorem enable_lsr_default_witness :
    ({ fullnodes_per_validator := 1, cfg := [], num_validators := 1,
       enable_lsr := none, lsr_backend := "vault" } :
        ClusterBuilderParams).enable_lsr_value = true :=
  (enable_lsr_default
    { fullnodes_per_validator := 1, cfg := [], num_validators := 1,
      enable_lsr := none, lsr_backend := "vault" }
    rfl sampleSEnv sampleNodeOf "t" false rfl (by decide)
    (fun _ => rfl) (fun _ => rfl) (fun _ => rfl) (fun _ => rfl) sampleGenEnv_ok).1

/-! ### C4: `initialize_vault` (lines 337-371)

The key-name constants (`OWNER_KEY`, `OPERATOR_KEY`, `CONSENSUS_KEY`,
`EXECUTION_KEY`, `VALIDATOR_NETWORK_KEY`, `FULLNODE_NETWORK_KEY`,
`LIBRA_ROOT_KEY`) live in `libra_global_constants`, outside `src/`;
modelled from the spec as six distinct kinds, and a created key name
`format!("{}__{}", pod_name, key)` as the structured pair (pod, kind), so
the pod-name prefix of every slot is explicit. -/

/-- Modelled from the spec: the six per-validator key kinds, in the order
the source creates them. -/
inductive KeyKind where
  | owner
  | operator
  | consensus
  | execution
  | validatorNetwork
  | fullnodeNetwork
  deriving DecidableEq, Repr

/-- A key name in the vault: the shared root key
(`libra__libra_root_key`), or a per-validator slot named with the
validator's pod name as prefix. -/
inductive VKey where
  | rootKey
  | slot (pod : PodName) (kind : KeyKind)
  deriving DecidableEq, Repr

/-- Results of `create_key` calls against one vault node's secret store. -/
structure VaultEnv where
  createKeyRes : VKey → Except Err Unit

/-- The create-key program of `initialize_vault` for node
`validator_index`: the root key first, only on index 0 (lines 346-351),
then the six slots prefixed with validator `validator_index`'s pod name, in
source order (lines 352-366). -/
def initializeVaultPlan (env : VaultEnv) (validator_index : Nat) :
    List (VKey × Except Err Unit) :=
  (if validator_index = 0 then [(VKey.rootKey, env.createKeyRes VKey.rootKey)] else []) ++
  ([KeyKind.owner, KeyKind.operator, KeyKind.consensus, KeyKind.execution,
    KeyKind.validatorNetwork, KeyKind.fullnodeNetwork].map
    (fun k => (VKey.slot (PodName.validatorPod validator_index) k,
               env.createKeyRes (VKey.slot (PodName.validatorPod validator_index) k))))

/-- `initialize_vault`: run the create-key program, stopping at the first
failure. -/
def initialize_vault (env : VaultEnv) (validator_index : Nat) : List VKey × Option Err :=
  seqCalls (initializeVaultPlan env validator_index)

/-- C4: on a node whose secret store accepts every creation,
`initialize_vault i` creates exactly the six named key slots (each named
with validator `i`'s pod name as prefix), preceded by the single root key
exactly when `i = 0`; the created names are pairwise distinct, and the root
key is created exactly once on index 0 and never otherwise. -/
theorem initialize_vault_keys (env : VaultEnv) (i : Nat)
    (h : ∀ k, env.createKeyRes k = Except.ok ()) :
    initialize_vault env i =
      ((if i = 0 then [VKey.rootKey] else []) ++
        [VKey.slot (PodName.validatorPod i) KeyKind.owner,
         VKey.slot (PodName.validatorPod i) KeyKind.operator,
         VKey.slot (PodName.validatorPod i) KeyKind.consensus,
         VKey.slot (PodName.validatorPod i) KeyKind.execution,
         VKey.slot (PodName.validatorPod i) KeyKind.validatorNetwork,
         VKey.slot (PodName.validatorPod i) KeyKind.fullnodeNetwork], none) ∧
    (initialize_vault env i).1.count VKey.rootKey = (if i = 0 then 1 else 0) ∧
    (initialize_vault env i).1.Nodup := by
  have hplan : initialize_vault env i =
      ((if i = 0 then [VKey.rootKey] else []) ++
        [VKey.slot (PodName.validatorPod i) KeyKind.owner,
         VKey.slot (PodName.validatorPod i) KeyKind.operator,
         VKey.slot (PodName.validatorPod i) KeyKind.consensus,
         VKey.slot (PodName.validatorPod i) KeyKind.execution,
         VKey.slot (PodName.validatorPod i) KeyKind.validatorNetwork,
         VKey.slot (PodName.validatorPod i) KeyKind.fullnodeNetwork], none) := by
    rw [initialize_vault,
      seqCalls_allOk _ (by
        intro p hp
        rcases List.mem_append.mp hp with h1 | h1
        · by_cases hi : i = 0 <;> simp [hi] at h1
          rw [h1]
          exact h VKey.rootKey
        · simp only [List.mem_map] at h1
          obtain ⟨k, _, rfl⟩ := h1
          exact h _)]
    by_cases hi : i = 0 <;> simp [initializeVaultPlan, hi]
  refine ⟨hplan, ?_, ?_⟩ <;> rw [hplan]
  · by_cases hi : i = 0 <;> simp [hi, List.count_cons, List.count_append]
  · by_cases hi : i = 0 <;> simp [hi]

/-- A secret store accepting every key creation. -/
def sampleVaultEnv : VaultEnv :=
  { createKeyRes := fun _ => Except.ok () }

/-- Witness for C4 at indices 0 and 1. -/
theorem initialize_vault_keys_witness :
    (initialize_vault sampleVaultEnv 0).1.count VKey.rootKey = 1 ∧
    (initialize_vault sampleVaultEnv 1).1.count VKey.rootKey = 0 ∧
    (initialize_vault sampleVaultEnv 1).1.Nodup :=
  ⟨(initialize_vault_keys sampleVaultEnv 0 (fun _ => rfl)).2.1,
   (initialize_vault_keys sampleVaultEnv 1 (fun _ => rfl)).2.1,
   (initialize_vault_keys sampleVaultEnv 1 (fun _ => rfl)).2.2⟩

/-! ### C5: the bounded retry around `initialize_vault` -/

theorem andThen_ok_ex {α β : Type} {x : SRes α} {f : α → SRes β} {b : β}
    (h : (andThen x f).2 = Except.ok b) :
    ∃ a, x.2 = Except.ok a ∧ (f a).2 = Except.ok b := by
  obtain ⟨t, r⟩ := x
  cases r with
  | error e => simp [andThen] at h
  | ok a => exact ⟨a, rfl, by simpa [andThen] using h⟩

theorem allocAll_len {env : SEnv} :
    ∀ (names : List PodName) (ns : List KubeNode),
      (allocAll env names).2 = Except.ok ns → ns.length = names.length
  | [], ns, h => by
      simp only [allocAll, Except.ok.injEq] at h
      rw [← h]
      rfl
  | p :: rest, ns, h => by
      cases hr : env.allocateRes p with
      | error e => rw [allocAll, hr] at h; simp at h
      | ok node =>
          rw [allocAll, hr] at h
          rcases hrec : allocAll env rest with ⟨t, r⟩
          rw [hrec] at h
          cases r with
          | ok ms =>
              simp only [Except.ok.injEq] at h
              rw [← h]
              have := allocAll_len rest ms (by rw [hrec])
              simp [this]
          | error e => simp at h

theorem retryAttemptsFrom_ok_exists {f : Nat → Except Err Unit} :
    ∀ (fuel k : Nat), (retryAttemptsFrom f fuel k).2 = Except.ok () → ∃ a, f a = Except.ok ()
  | 0, k, h => by simp [retryAttemptsFrom] at h
  | 1, k, h => ⟨k, by simpa [retryAttemptsFrom] using h⟩
  | n + 2, k, h => by
      cases hf : f k with
      | ok u => exact ⟨k, by rw [hf]⟩
      | error e =>
          rw [retryAttemptsFrom, hf] at h
          rcases hrec : retryAttemptsFrom f (n + 1) (k + 1) with ⟨t, r⟩
          rw [hrec] at h
          exact retryAttemptsFrom_ok_exists (n + 1) (k + 1) (by rw [hrec]; exact h)

theorem vaultInitPhase_ok_forall {env : SEnv} :
    ∀ (l : List KubeNode) (s : Nat), (vaultInitPhase env s l).2 = Except.ok () →
      ∀ k, k < l.length →
        (retryAttemptsFrom (env.vaultInitRes (s + k)) retryLimit 0).2 = Except.ok ()
  | [], s, _, k, hk => absurd hk (by simp)
  | node :: rest, s, h, k, hk => by
      rcases hr : retryAttemptsFrom (env.vaultInitRes s) retryLimit 0 with ⟨t, r⟩
      rw [vaultInitPhase, hr] at h
      cases r with
      | error e => simp at h
      | ok u =>
          cases u
          rcases hrec : vaultInitPhase env (s + 1) rest with ⟨t2, r2⟩
          rw [hrec] at h
          simp only [] at h
          cases k with
          | zero =>
              rw [Nat.add_zero, hr]
          | succ k' =>
              have harith : s + (k' + 1) = (s + 1) + k' := by omega
              rw [harith]
              exact vaultInitPhase_ok_forall rest (s + 1) (by rw [hrec]; exact h) k'
                (Nat.lt_of_succ_lt_succ hk)

/-- Exhausting the retry budget on any in-range vault node makes the whole
spawn run fail: if `initialize_vault` for node `i` never succeeds, no run
returns a result. -/
theorem spawnSet_vault_exhaustion (env : SEnv) (n fpv : Nat) (tag : String)
    (ov : List String) (clean : Bool) (i : Nat) (hi : i < n)
    (hfail : ∀ a, env.vaultInitRes i a ≠ Except.ok ()) :
    ∀ res, (spawnSet env n fpv true "vault" tag ov clean).2 ≠ Except.ok res := by
  intro res hok
  rw [spawnSet, if_pos (And.intro rfl rfl), if_pos rfl] at hok
  obtain ⟨vns, h1, hok⟩ := andThen_ok_ex hok
  obtain ⟨lns, h2, hok⟩ := andThen_ok_ex hok
  obtain ⟨lsrs, h3, hok⟩ := andThen_ok_ex hok
  obtain ⟨vaults, h4, hok⟩ := andThen_ok_ex hok
  obtain ⟨valns, h5, hok⟩ := andThen_ok_ex hok
  obtain ⟨fnns, h6, hok⟩ := andThen_ok_ex hok
  obtain ⟨u, h7, hok⟩ := andThen_ok_ex hok
  have hlen : vns.length = n := by
    have := allocAll_len _ _ h1
    simpa [vaultPodNames] using this
  have hne : vns.isEmpty = false := by
    cases vns with
    | nil => simp at hlen; omega
    | cons a t => rfl
  rw [initAndGenesisPhase, hne] at h7
  simp only [Bool.false_eq_true, if_false] at h7
  obtain ⟨v, h8, _⟩ := andThen_ok_ex h7
  cases v
  have h9 := vaultInitPhase_ok_forall vns 0 h8 i (by omega)
  rw [Nat.zero_add] at h9
  obtain ⟨a, ha⟩ := retryAttemptsFrom_ok_exists retryLimit 0 h9
  exact hfail a ha

theorem retryAttemptsFrom_all_fail {f : Nat → Except Err Unit} {ef : Nat → Err}
    (hf : ∀ a, f a = Except.error (ef a)) :
    ∀ (fuel k : Nat), 1 ≤ fuel →
      retryAttemptsFrom f fuel k = (List.range' k fuel, Except.error (ef (k + fuel - 1)))
  | 0, k, h0 => absurd h0 (by omega)
  | 1, k, _ => by
      simp [retryAttemptsFrom, hf k, List.range'_succ]
  | n + 2, k, _ => by
      have ih := retryAttemptsFrom_all_fail hf (n + 1) (k + 1) (by omega)
      have harith : (k + 1) + (n + 1) - 1 = k + (n + 2) - 1 := by omega
      rw [retryAttemptsFrom, hf k, ih]
      rw [harith]
      simp [List.range'_succ]

theorem vaultInitPhase_fail {env : SEnv} {i : Nat} {ef : Nat → Err}
    (hbad : ∀ a, env.vaultInitRes i a = Except.error (ef a))
    (hok : ∀ j, j ≠ i → env.vaultInitRes j 0 = Except.ok ()) :
    ∀ (l : List KubeNode) (s : Nat), s ≤ i → i < s + l.length →
      vaultInitPhase env s l =
        ((List.range' s (i - s)).map (fun j => SCall.vaultInitAttempt j 0) ++
          (List.range' 0 retryLimit).map (SCall.vaultInitAttempt i),
         Except.error (ef (retryLimit - 1)))
  | [], s, _, hlt => by simp at hlt; omega
  | node :: rest, s, hsle, hlt => by
      by_cases hsi : s = i
      · subst hsi
        have hr := retryAttemptsFrom_all_fail hbad retryLimit 0 (by decide)
        rw [vaultInitPhase, hr]
        simp [Nat.sub_self]
      · have hslt : s < i := by omega
        have hr := retryAttemptsFrom_first_ok (env.vaultInitRes s) 0 (hok s hsi)
          retryLimit (by decide)
        have ih := vaultInitPhase_fail hbad hok rest (s + 1) (by omega)
          (by simp at hlt ⊢; omega)
        rw [vaultInitPhase, hr, ih]
        have harith : i - s = (i - (s + 1)) + 1 := by omega
        rw [harith, List.range'_succ]
        simp

/-- Whether a call is an `initialize_vault` attempt for node `i`. -/
def isVaultAttemptAt (i : Nat) : SCall → Bool
  | SCall.vaultInitAttempt j _ => j == i
  | _ => false

/-- The trace of a run in which everything succeeds except that
`initialize_vault` for node `i` fails at every attempt: the run performs
the allocation and lsr/vault spawn phases, then the vault initialization
attempts — one first-attempt success per node before `i`, then the full
retry budget on node `i` — and aborts with the last attempt's error. -/
theorem spawnSet_vault_fail_trace (env : SEnv) (nodeOf : PodName → KubeNode)
    (n fpv : Nat) (tag : String) (ov : List String) (clean : Bool) (i : Nat)
    (ef : Nat → Err) (hi : i < n)
    (ha : ∀ p, env.allocateRes p = Except.ok (nodeOf p))
    (hc : ∀ s, env.cleanDataRes s = Except.ok ())
    (hs : ∀ cfg, env.spawnRes cfg = Except.ok ())
    (hbad : ∀ a, env.vaultInitRes i a = Except.error (ef a))
    (hok : ∀ j, j ≠ i → env.vaultInitRes j 0 = Except.ok ()) :
    spawnSet env n fpv true "vault" tag ov clean =
      ((vaultPodNames n).map SCall.allocate ++
       (lsrPodNames n).map SCall.allocate ++
       spawnLoopCalls clean PodName.lsrPod (lsrCfgOf n tag "vault") 0
         ((lsrPodNames n).map nodeOf) ++
       spawnLoopCalls clean PodName.vaultPod vaultCfgOf 0
         ((vaultPodNames n).map nodeOf) ++
       (validatorPodNames n).map SCall.allocate ++
       (fullnodePodNames n fpv).map SCall.allocate ++
       ((List.range' 0 i).map (fun j => SCall.vaultInitAttempt j 0) ++
        (List.range' 0 retryLimit).map (SCall.vaultInitAttempt i)),
       Except.error (ef (retryLimit - 1))) := by
  have hlen : ((vaultPodNames n).map nodeOf).length = n := by simp [vaultPodNames]
  have hne : ((vaultPodNames n).map nodeOf).isEmpty = false := by
    rw [List.isEmpty_eq_false]
    intro hnil
    rw [hnil] at hlen
    simp at hlen
    omega
  have hphase := vaultInitPhase_fail hbad hok ((vaultPodNames n).map nodeOf) 0
    (by omega) (by omega)
  have hig : ∀ b c : List KubeNode,
      initAndGenesisPhase env ((vaultPodNames n).map nodeOf) b c =
        ((List.range' 0 i).map (fun j => SCall.vaultInitAttempt j 0) ++
          (List.range' 0 retryLimit).map (SCall.vaultInitAttempt i),
         Except.error (ef (retryLimit - 1))) := by
    intro b c
    rw [initAndGenesisPhase, hne]
    simp only [Bool.false_eq_true, if_false, hphase, andThen, Nat.sub_zero]
  rw [spawnSet, if_pos (And.intro rfl rfl), if_pos rfl]
  simp only [allocAll_ok ha, spawnLoop_ok hc hs, hig, andThen, List.append_assoc]

/-- Under the same failing environment, exactly `retryLimit` attempts are
made for node `i`, and the run's result is an error. -/
theorem spawnSet_vault_fail_count (env : SEnv) (nodeOf : PodName → KubeNode)
    (n fpv : Nat) (tag : String) (ov : List String) (clean : Bool) (i : Nat)
    (ef : Nat → Err) (hi : i < n)
    (ha : ∀ p, env.allocateRes p = Except.ok (nodeOf p))
    (hc : ∀ s, env.cleanDataRes s = Except.ok ())
    (hs : ∀ cfg, env.spawnRes cfg = Except.ok ())
    (hbad : ∀ a, env.vaultInitRes i a = Except.error (ef a))
    (hok : ∀ j, j ≠ i → env.vaultInitRes j 0 = Except.ok ()) :
    ((spawnSet env n fpv true "vault" tag ov clean).1).countP (isVaultAttemptAt i) =
      retryLimit ∧
    (spawnSet env n fpv true "vault" tag ov clean).2 =
      Except.error (ef (retryLimit - 1)) := by
  rw [spawnSet_vault_fail_trace env nodeOf n fpv tag ov clean i ef hi ha hc hs hbad hok]
  refine ⟨?_, rfl⟩
  simp only [List.countP_append]
  have hz1 : ∀ (names : List PodName),
      (names.map SCall.allocate).countP (isVaultAttemptAt i) = 0 := by
    intro names
    apply List.countP_eq_zero.mpr
    intro c hcm
    obtain ⟨p, _, rfl⟩ := List.mem_map.mp hcm
    simp [isVaultAttemptAt]
  have hz2 : ∀ (clean' : Bool) (siteOf : Nat → PodName) (cfgOf : Nat → InstanceConfig)
      (l : List KubeNode) (s : Nat),
      (spawnLoopCalls clean' siteOf cfgOf s l).countP (isVaultAttemptAt i) = 0 := by
    intro clean' siteOf cfgOf l
    induction l with
    | nil => intro s; rfl
    | cons node rest ih =>
        intro s
        rw [spawnLoopCalls, List.countP_append, ih (s + 1)]
        cases clean' <;> simp [spawnOneCalls, isVaultAttemptAt, List.countP_cons]
  have hz3 : ((List.range' 0 i).map
      (fun j => SCall.vaultInitAttempt j 0)).countP (isVaultAttemptAt i) = 0 := by
    apply List.countP_eq_zero.mpr
    intro c hcm
    obtain ⟨j, hj, rfl⟩ := List.mem_map.mp hcm
    have : j < i := by
      have := List.mem_range'_1.mp hj
      omega
    simp [isVaultAttemptAt]
    omega
  have hfull : ((List.range' 0 retryLimit).map
      (SCall.vaultInitAttempt i)).countP (isVaultAttemptAt i) = retryLimit := by
    rw [List.countP_eq_length.mpr]
    · simp
    · intro c hcm
      obtain ⟨j, _, rfl⟩ := List.mem_map.mp hcm
      simp [isVaultAttemptAt]
  rw [hz1, hz1, hz1, hz1, hz2, hz2, hz3, hfull]
  omega

theorem count_le_one_of_nodup {β : Type} [BEq β] [LawfulBEq β] :
    ∀ (l : List β), l.Nodup → ∀ a, l.count a ≤ 1
  | [], _, a => by simp
  | b :: t, h, a => by
      rw [List.count_cons]
      rcases List.nodup_cons.mp h with ⟨hb, ht⟩
      by_cases hba : b == a
      · have hbeq : b = a := by simpa using hba
        subst hbeq
        have hz : t.count b = 0 := List.count_eq_zero.mpr hb
        simp [hz, hba]
      · simp only [hba, if_false]
        simpa using count_le_one_of_nodup t ht a

/-- The call-site identity of a genesis operation: a kind code and the
validator index (0 for the singleton steps).  Two distinct call sites of
`generate_genesis` always have distinct identities. -/
def genCallId : GenCall → Nat × Nat
  | GenCall.writeLayoutFile => (0, 0)
  | GenCall.writeTokenFile => (1, 0)
  | GenCall.setLayout => (2, 0)
  | GenCall.libraRootKey => (3, 0)
  | GenCall.ownerKey i => (4, i)
  | GenCall.operatorKey i => (5, i)
  | GenCall.parseValidatorAddr i _ => (6, i)
  | GenCall.parseFullnodeAddr i _ => (7, i)
  | GenCall.validatorConfig i => (8, i)
  | GenCall.setOperator i => (9, i)
  | GenCall.genesis => (10, 0)
  | GenCall.waypoint i => (11, i)
  | GenCall.extractPrivateKey => (12, 0)
  | GenCall.readGenesisFile i => (13, i)
  | GenCall.putFile i _ _ _ => (14, i)

/-- The identities of one full registration block. -/
def regBlockIds (i : Nat) : List (Nat × Nat) :=
  [(4, i), (5, i), (6, i), (7, i), (8, i), (9, i)]

/-- The identities of one full distribution task. -/
def distIds (i : Nat) : List (Nat × Nat) :=
  [(13, i), (14, i)]

/-- The identity sequence of the maximal (fully successful) genesis
program over `va` vault nodes and `vb` validator nodes. -/
def genIdsFull (va vb : Nat) : List (Nat × Nat) :=
  [(0, 0), (1, 0), (2, 0), (3, 0)] ++
  (List.range va).flatMap regBlockIds ++
  [(10, 0)] ++
  (List.range va).map (fun i => (11, i)) ++
  [(12, 0)] ++
  (List.range vb).flatMap distIds

theorem registrationBlock_ids_sub (env : GenEnv) (b c : List KubeNode) (i : Nat) :
    List.Sublist (((registrationBlock env b c i).map Prod.fst).map genCallId)
      (regBlockIds i) := by
  cases hv : env.parseAddr (addrString (nodeAt b i).internal_ip) <;>
    cases hf : env.parseAddr (addrString (nodeAt c i).internal_ip) <;>
      simp only [registrationBlock, hv, hf, Bool.false_eq_true, if_false, if_true,
        List.map_append, List.map_cons, List.map_nil, genCallId, regBlockIds,
        List.cons_append, List.nil_append] <;>
      first
        | exact List.Sublist.refl _
        | exact List.IsPrefix.sublist ⟨_, rfl⟩

theorem regBlocksFrom_ids_sub (env : GenEnv) (b c : List KubeNode) :
    ∀ (l : List KubeNode) (s : Nat),
      List.Sublist (((regBlocksFrom env b c s l).map Prod.fst).map genCallId)
        ((List.range' s l.length).flatMap regBlockIds)
  | [], s => by simp [regBlocksFrom]
  | node :: rest, s => by
      rw [regBlocksFrom]
      simp only [List.map_append, List.length_cons, List.range'_succ, List.flatMap_cons]
      exact (registrationBlock_ids_sub env b c s).append
        (regBlocksFrom_ids_sub env b c rest (s + 1))

theorem waypointsFrom_ids_eq (env : GenEnv) :
    ∀ (l : List KubeNode) (s : Nat),
      ((waypointsFrom env s l).map Prod.fst).map genCallId =
        (List.range' s l.length).map (fun i => (11, i))
  | [], _ => rfl
  | node :: rest, s => by
      simp [waypointsFrom, genCallId, List.range'_succ,
        waypointsFrom_ids_eq env rest (s + 1)]

theorem distTasksFrom_ids_sub (env : GenEnv) :
    ∀ (l : List KubeNode) (s : Nat),
      List.Sublist (((distTasksFrom env s l).map Prod.fst).map genCallId)
        ((List.range' s l.length).flatMap distIds)
  | [], s => by simp [distTasksFrom]
  | node :: rest, s => by
      rw [distTasksFrom]
      simp only [List.map_append, List.length_cons, List.range'_succ, List.flatMap_cons]
      refine List.Sublist.append ?_ (distTasksFrom_ids_sub env rest (s + 1))
      cases hr : env.readGenesisRes s <;>
        simp only [distTask, hr, List.map_cons, List.map_nil, genCallId, distIds] <;>
        first
          | exact List.Sublist.refl _
          | exact List.IsPrefix.sublist ⟨_, rfl⟩

theorem genPlan_ids_sub (env : GenEnv) (a b c : List KubeNode) :
    List.Sublist (((genPlan env a b c).map Prod.fst).map genCallId)
      (genIdsFull a.length b.length) := by
  rw [genPlan, genIdsFull]
  simp only [List.map_append, List.range_eq_range']
  refine ((((List.Sublist.append ?_ ?_).append ?_).append ?_).append ?_).append ?_
  · exact List.Sublist.refl _
  · exact regBlocksFrom_ids_sub env b c a 0
  · exact List.Sublist.refl _
  · rw [waypointsFrom_ids_eq]
  · exact List.Sublist.refl _
  · exact distTasksFrom_ids_sub env b 0

theorem nodup_flatMap_indexed {α β : Type} (f : α → List β)
    (hn : ∀ i, (f i).Nodup) (hdisj : ∀ i j x, x ∈ f i → x ∈ f j → i = j) :
    ∀ l : List α, l.Nodup → (l.flatMap f).Nodup
  | [], _ => List.nodup_nil
  | a :: t, h => by
      simp only [List.flatMap_cons]
      rw [List.nodup_append]
      refine ⟨hn a, nodup_flatMap_indexed f hn hdisj t (List.nodup_cons.mp h).2, ?_⟩
      intro x hx hxt
      obtain ⟨b, hb, hxb⟩ := List.mem_flatMap.mp hxt
      exact (List.nodup_cons.mp h).1 ((hdisj a b x hx hxb) ▸ hb)

theorem genIdsFull_nodup (va vb : Nat) : (genIdsFull va vb).Nodup := by
  have hreg : ((List.range va).flatMap regBlockIds).Nodup := by
    refine nodup_flatMap_indexed regBlockIds (fun i => by simp [regBlockIds]) ?_
      (List.range va) (List.nodup_range va)
    intro i j x hx hy
    have hxi : x.2 = i := by
      simp only [regBlockIds, List.mem_cons, List.not_mem_nil, or_false] at hx
      rcases hx with h | h | h | h | h | h <;> simp [h]
    have hxj : x.2 = j := by
      simp only [regBlockIds, List.mem_cons, List.not_mem_nil, or_false] at hy
      rcases hy with h | h | h | h | h | h <;> simp [h]
    omega
  have hdist : ((List.range vb).flatMap distIds).Nodup := by
    refine nodup_flatMap_indexed distIds (fun i => by simp [distIds]) ?_
      (List.range vb) (List.nodup_range vb)
    intro i j x hx hy
    have hxi : x.2 = i := by
      simp only [distIds, List.mem_cons, List.not_mem_nil, or_false] at hx
      rcases hx with h | h <;> simp [h]
    have hxj : x.2 = j := by
      simp only [distIds, List.mem_cons, List.not_mem_nil, or_false] at hy
      rcases hy with h | h <;> simp [h]
    omega
  have hway : ((List.range va).map (fun i => ((11 : Nat), i))).Nodup :=
    (List.nodup_range va).map (fun a b h => by simpa using h)
  have hregk : ∀ x ∈ (List.range va).flatMap regBlockIds, 4 ≤ x.1 ∧ x.1 ≤ 9 := by
    intro x hx
    obtain ⟨b, _, hxb⟩ := List.mem_flatMap.mp hx
    simp only [regBlockIds, List.mem_cons, List.not_mem_nil, or_false] at hxb
    rcases hxb with h | h | h | h | h | h <;> simp [h]
  have hwayk : ∀ x ∈ (List.range va).map (fun i => ((11 : Nat), i)), x.1 = 11 := by
    intro x hx
    obtain ⟨b, _, hxb⟩ := List.mem_map.mp hx
    simp [← hxb]
  have hdistk : ∀ x ∈ (List.range vb).flatMap distIds, 13 ≤ x.1 ∧ x.1 ≤ 14 := by
    intro x hx
    obtain ⟨b, _, hxb⟩ := List.mem_flatMap.mp hx
    simp only [distIds, List.mem_cons, List.not_mem_nil, or_false] at hxb
    rcases hxb with h | h <;> simp [h]
  rw [genIdsFull]
  rw [List.nodup_append]
  refine ⟨?_, hdist, ?_⟩
  rotate_left
  · intro x hx hx2
    have h14 : 13 ≤ x.1 ∧ x.1 ≤ 14 := hdistk x hx2
    simp only [List.append_assoc, List.mem_append, List.mem_cons,
      List.not_mem_nil, or_false] at hx
    rcases hx with (h | h | h | h) | h | h | h | h
    all_goals first
      | (subst h; simp at h14)
      | (have hk := hregk x h; omega)
      | (have hk := hwayk x h; omega)
  rw [List.nodup_append]
  refine ⟨?_, by simp, ?_⟩
  rotate_left
  · intro x hx hx2
    have h12 : x.1 = 12 := by
      simp only [List.mem_singleton] at hx2
      rw [hx2]
    simp only [List.append_assoc, List.mem_append, List.mem_cons,
      List.not_mem_nil, or_false] at hx
    rcases hx with (h | h | h | h) | h | h | h
    all_goals first
      | (subst h; simp at h12)
      | (have hk := hregk x h; omega)
      | (have hk := hwayk x h; omega)
  rw [List.nodup_append]
  refine ⟨?_, hway, ?_⟩
  rotate_left
  · intro x hx hx2
    have h11 : x.1 = 11 := hwayk x hx2
    simp only [List.append_assoc, List.mem_append, List.mem_cons,
      List.not_mem_nil, or_false] at hx
    rcases hx with (h | h | h | h) | h | h
    all_goals first
      | (subst h; simp at h11)
      | (have hk := hregk x h; omega)
  rw [List.nodup_append]
  refine ⟨?_, by simp, ?_⟩
  rotate_left
  · intro x hx hx2
    have h10 : x.1 = 10 := by
      simp only [List.mem_singleton] at hx2
      rw [hx2]
    simp only [List.mem_append, List.mem_cons, List.not_mem_nil, or_false] at hx
    rcases hx with (h | h | h | h) | h
    all_goals first
      | (subst h; simp at h10)
      | (have hk := hregk x h; omega)
  rw [List.nodup_append]
  refine ⟨by decide, hreg, ?_⟩
  intro x hx hx2
  have := hregk x hx2
  simp only [List.mem_cons, List.not_mem_nil, or_false] at hx
  rcases hx with h | h | h | h <;> (subst h; simp at this)

/-- Every genesis operation is attempted at most once in any run of
`generate_genesis`, whatever the environment: no genesis call is ever
retried. -/
theorem generateGenesis_count_le_one (env : GenEnv) (a b c : List KubeNode) (g : GenCall) :
    ((generateGenesis env a b c).1).count g ≤ 1 := by
  have h1 : ((generateGenesis env a b c).1).count g ≤
      (((generateGenesis env a b c).1).map genCallId).count (genCallId g) := by
    rw [List.count, List.count, List.countP_map]
    apply List.countP_mono_left
    intro x _ hx
    have : x = g := by simpa using hx
    simp [this]
  have h2 := (((seqCalls_trace_le
      (genPlan env a b c)).sublist.map genCallId).trans
      (genPlan_ids_sub env a b c)).count_le (genCallId g)
  have h3 := count_le_one_of_nodup (genIdsFull a.length b.length)
    (genIdsFull_nodup a.length b.length) (genCallId g)
  calc ((generateGenesis env a b c).1).count g
      ≤ (((generateGenesis env a b c).1).map genCallId).count (genCallId g) := h1
    _ ≤ (genIdsFull a.length b.length).count (genCallId g) := h2
    _ ≤ 1 := h3

/-- The call site that issued a spawn-layer operation, as (operation kind,
pod): kind 0 = allocation, 1 = data wipe, 2 = instance spawn.  The retried
vault-initialization attempts and the embedded genesis operations map to
`none` (the former are counted separately, the latter are covered by
`generateGenesis_count_le_one`). -/
def sitePodOf (cfg : InstanceConfig) : PodName :=
  match cfg.application_config with
  | ApplicationConfig.Validator _ => PodName.validatorPod cfg.validator_group
  | ApplicationConfig.Fullnode fc => PodName.fullnodePod cfg.validator_group fc.fullnode_index
  | ApplicationConfig.Vault => PodName.vaultPod cfg.validator_group
  | ApplicationConfig.LSR _ => PodName.lsrPod cfg.validator_group

/-- The spawn-layer operation identity. -/
def opId : SCall → Option (Nat × PodName)
  | SCall.allocate p => some (0, p)
  | SCall.cleanData site _ => some (1, site)
  | SCall.spawnInstance cfg => some (2, sitePodOf cfg)
  | SCall.vaultInitAttempt _ _ => none
  | SCall.genesisCall _ => none

/-- The identities of one full instance-spawn task at a site. -/
def spawnSiteIds (clean : Bool) (site : PodName) : List (Nat × PodName) :=
  if clean then [(1, site), (2, site)] else [(2, site)]

/-- The identities of an allocation fan-out. -/
def allocIds (names : List PodName) : List (Nat × PodName) :=
  names.map (fun p => (0, p))

/-- The identity sequence of the maximal (fully successful) spawn run:
every spawn-layer call site appears exactly once. -/
def opSiteSeq (n fpv : Nat) (el : Bool) (backend : String) (clean : Bool) :
    List (Nat × PodName) :=
  List.flatten
    [allocIds (if el ∧ backend = "vault" then vaultPodNames n else []),
     allocIds (if el then lsrPodNames n else []),
     (if el then (List.range n).flatMap
       (fun j => spawnSiteIds clean (PodName.lsrPod j)) else []),
     (if el ∧ backend = "vault" then (List.range n).flatMap
       (fun j => spawnSiteIds clean (PodName.vaultPod j)) else []),
     allocIds (validatorPodNames n),
     allocIds (fullnodePodNames n fpv),
     [],
     (List.range n).flatMap (fun j => spawnSiteIds clean (PodName.validatorPod j)),
     (fnPairs n fpv).flatMap (fun vf => spawnSiteIds clean (PodName.fullnodePod vf.1 vf.2))]

theorem filterMap_andThen_sub {α β γ : Type} (g : SCall → Option γ) {x : SRes α}
    {f : α → SRes β} {P Q : List γ}
    (hx : List.Sublist (x.1.filterMap g) P)
    (hf : ∀ a, x.2 = Except.ok a → List.Sublist (((f a).1).filterMap g) Q) :
    List.Sublist (((andThen x f).1).filterMap g) (P ++ Q) := by
  obtain ⟨t, r⟩ := x
  cases r with
  | error e => exact hx.trans (List.sublist_append_left P Q)
  | ok a =>
      simp only [andThen, List.filterMap_append]
      exact hx.append (hf a rfl)

theorem allocAll_ids_sub {env : SEnv} :
    ∀ names, List.Sublist ((allocAll env names).1.filterMap opId) (allocIds names)
  | [] => by simp [allocAll, allocIds]
  | p :: rest => by
      cases hr : env.allocateRes p with
      | error e =>
          simp only [allocAll, hr, List.filterMap_cons, opId, allocIds,
            List.filterMap_nil, List.map_cons]
          exact List.IsPrefix.sublist ⟨_, rfl⟩
      | ok node =>
          rcases hrec : allocAll env rest with ⟨t, r⟩
          have ih := @allocAll_ids_sub env rest
          rw [hrec] at ih
          cases r <;>
            simp only [allocAll, hr, hrec, List.filterMap_cons, opId, allocIds,
              List.map_cons] <;>
            exact List.Sublist.cons₂ _ ih

theorem spawnOne_ids_sub {env : SEnv} {clean : Bool} {site : PodName}
    {nodeName : String} {cfg : InstanceConfig} (hsite : sitePodOf cfg = site) :
    List.Sublist ((spawnOne env clean site nodeName cfg).1.filterMap opId)
      (spawnSiteIds clean site) := by
  cases clean with
  | false =>
      cases hs : env.spawnRes cfg <;>
        simp [spawnOne, hs, opId, spawnSiteIds, hsite]
  | true =>
      cases hcd : env.cleanDataRes nodeName with
      | error e =>
          simp only [spawnOne, hcd, if_true, List.filterMap_cons, opId,
            spawnSiteIds, List.filterMap_nil]
          exact List.IsPrefix.sublist ⟨_, rfl⟩
      | ok u =>
          cases hs : env.spawnRes cfg <;>
            simp [spawnOne, hcd, hs, opId, spawnSiteIds, hsite]

theorem spawnLoop_ids_sub {env : SEnv} {clean : Bool} {siteOf : Nat → PodName}
    {cfgOf : Nat → InstanceConfig} (hsite : ∀ j, sitePodOf (cfgOf j) = siteOf j) :
    ∀ (l : List KubeNode) (s : Nat),
      List.Sublist ((spawnLoop env clean siteOf cfgOf s l).1.filterMap opId)
        ((List.range' s l.length).flatMap (fun j => spawnSiteIds clean (siteOf j)))
  | [], s => by simp [spawnLoop]
  | node :: rest, s => by
      rw [spawnLoop]
      simp only [List.length_cons, List.range'_succ, List.flatMap_cons]
      refine filterMap_andThen_sub opId (spawnOne_ids_sub (hsite s)) ?_
      intro a _
      rw [consRes_fst]
      exact spawnLoop_ids_sub hsite rest (s + 1)

theorem spawnPairLoop_ids_sub {env : SEnv} {clean : Bool}
    {nameOf : Nat × Nat → String} {cfgOf : Nat × Nat → InstanceConfig}
    (hsite : ∀ vf, sitePodOf (cfgOf vf) = PodName.fullnodePod vf.1 vf.2) :
    ∀ pairs : List (Nat × Nat),
      List.Sublist ((spawnPairLoop env clean nameOf cfgOf pairs).1.filterMap opId)
        (pairs.flatMap (fun vf => spawnSiteIds clean (PodName.fullnodePod vf.1 vf.2)))
  | [] => by simp [spawnPairLoop]
  | vf :: rest => by
      rw [spawnPairLoop]
      simp only [List.flatMap_cons]
      refine filterMap_andThen_sub opId (spawnOne_ids_sub (hsite vf)) ?_
      intro a _
      rw [consRes_fst]
      exact spawnPairLoop_ids_sub hsite rest

theorem map_vaultInitAttempt_filterMap_opId (i : Nat) (l : List Nat) :
    (l.map (SCall.vaultInitAttempt i)).filterMap opId = [] := by
  induction l with
  | nil => rfl
  | cons a t ih => simp [opId, ih]

theorem vaultInitPhase_ids_nil {env : SEnv} :
    ∀ (l : List KubeNode) (s : Nat), (vaultInitPhase env s l).1.filterMap opId = []
  | [], _ => rfl
  | node :: rest, s => by
      rcases hr : retryAttemptsFrom (env.vaultInitRes s) retryLimit 0 with ⟨t, r⟩
      cases r with
      | error e =>
          simp only [vaultInitPhase, hr]
          exact map_vaultInitAttempt_filterMap_opId s t
      | ok u =>
          rcases hrec : vaultInitPhase env (s + 1) rest with ⟨t2, r2⟩
          have ih := @vaultInitPhase_ids_nil env rest (s + 1)
          rw [hrec] at ih
          simp only [vaultInitPhase, hr, hrec, List.filterMap_append,
            map_vaultInitAttempt_filterMap_opId, List.nil_append]
          exact ih

theorem map_genesisCall_filterMap_opId (l : List GenCall) :
    (l.map SCall.genesisCall).filterMap opId = [] := by
  induction l with
  | nil => rfl
  | cons a t ih => simp [opId, ih]

theorem initAndGenesisPhase_ids_nil {env : SEnv} (a b c : List KubeNode) :
    (initAndGenesisPhase env a b c).1.filterMap opId = [] := by
  rw [initAndGenesisPhase]
  by_cases he : a.isEmpty
  · simp [he]
  · simp only [he, Bool.false_eq_true, if_false]
    rcases hr : vaultInitPhase env 0 a with ⟨t, r⟩
    have h1 := @vaultInitPhase_ids_nil env a 0
    rw [hr] at h1
    cases r with
    | error e => simpa [andThen] using h1
    | ok u =>
        simp only [andThen, List.filterMap_append, h1, List.nil_append]
        rcases hg : generateGenesis env.genEnv a b c with ⟨t2, r2⟩
        cases r2 <;> simp only [genesisPhase, hg] <;>
          exact map_genesisCall_filterMap_opId t2

/-- The spawn-layer operation identities of any run form a sublist of the
maximal per-call-site identity sequence. -/
theorem spawnSet_ids_sub (env : SEnv) (n fpv : Nat) (el : Bool)
    (backend tag : String) (ov : List String) (clean : Bool) :
    List.Sublist ((spawnSet env n fpv el backend tag ov clean).1.filterMap opId)
      (opSiteSeq n fpv el backend clean) := by
  rw [spawnSet, opSiteSeq]
  simp only [List.flatten]
  refine filterMap_andThen_sub opId ?_ ?_
  · by_cases h1 : (el : Prop) ∧ backend = "vault" <;>
      simp only [h1, if_true, if_false, iff_true, iff_false, if_pos, if_neg,
        not_false_iff] <;>
      first
        | exact allocAll_ids_sub _
        | simp
  intro vault_nodes hvn
  refine filterMap_andThen_sub opId ?_ ?_
  · by_cases h2 : (el : Prop) <;>
      simp only [h2, if_true, if_false, iff_true, iff_false, if_pos, if_neg,
        not_false_iff] <;>
      first
        | exact allocAll_ids_sub _
        | simp
  intro lsrs_nodes hln
  refine filterMap_andThen_sub opId ?_ ?_
  · have hlen : el = true → lsrs_nodes.length = n := by
      intro h2
      rw [if_pos h2] at hln
      have := allocAll_len _ _ hln
      simpa [lsrPodNames] using this
    by_cases h2 : el = true
    · rw [if_pos h2]
      have := @spawnLoop_ids_sub env clean PodName.lsrPod
        (lsrCfgOf n tag backend) (fun j => rfl) lsrs_nodes 0
      rwa [hlen h2, ← List.range_eq_range'] at this
    · rw [if_neg h2] at hln ⊢
      have hnil : lsrs_nodes = [] := by
        simp only [Except.ok.injEq] at hln
        exact hln.symm
      subst hnil
      simp [spawnLoop]
  intro lsrs _
  refine filterMap_andThen_sub opId ?_ ?_
  · have hlen : (el = true ∧ backend = "vault") → vault_nodes.length = n := by
      intro h1
      rw [if_pos h1] at hvn
      have := allocAll_len _ _ hvn
      simpa [vaultPodNames] using this
    by_cases h1 : el = true ∧ backend = "vault"
    · rw [if_pos h1]
      have := @spawnLoop_ids_sub env clean PodName.vaultPod vaultCfgOf
        (fun j => rfl) vault_nodes 0
      rwa [hlen h1, ← List.range_eq_range'] at this
    · rw [if_neg h1] at hvn ⊢
      have hnil : vault_nodes = [] := by
        simp only [Except.ok.injEq] at hvn
        exact hvn.symm
      subst hnil
      simp [spawnLoop]
  intro vaults _
  refine filterMap_andThen_sub opId (allocAll_ids_sub _) ?_
  intro validator_nodes hvaln
  refine filterMap_andThen_sub opId (allocAll_ids_sub _) ?_
  intro fullnode_nodes _
  refine filterMap_andThen_sub opId ?_ ?_
  · rw [initAndGenesisPhase_ids_nil]
  intro u _
  refine filterMap_andThen_sub opId ?_ ?_
  · have hlen : validator_nodes.length = n := by
      have := allocAll_len _ _ hvaln
      simpa [validatorPodNames] using this
    have := @spawnLoop_ids_sub env clean PodName.validatorPod
      (validatorCfgOf n fpv el tag ov validator_nodes lsrs_nodes)
      (fun j => rfl) validator_nodes 0
    rwa [hlen, ← List.range_eq_range'] at this
  intro validators _
  refine filterMap_andThen_sub opId ?_ ?_
  · exact @spawnPairLoop_ids_sub env clean
      (fun vf => (nodeAt fullnode_nodes (vf.1 * fpv + vf.2)).name)
      (fullnodeCfgOf n fpv tag ov validator_nodes) (fun vf => rfl) _
  intro fullnodes _
  simp

/-- A numeric code for the pod-name role constructor. -/
def podCtor : PodName → Nat
  | PodName.vaultPod _ => 0
  | PodName.lsrPod _ => 1
  | PodName.validatorPod _ => 2
  | PodName.fullnodePod _ _ => 3

theorem mem_allocIds {x : Nat × PodName} {names : List PodName}
    (h : x ∈ allocIds names) : x.1 = 0 ∧ x.2 ∈ names := by
  obtain ⟨p, hp, rfl⟩ := List.mem_map.mp h
  exact ⟨rfl, hp⟩

theorem mem_spawnSiteIds {x : Nat × PodName} {clean : Bool} {site : PodName}
    (h : x ∈ spawnSiteIds clean site) : (x.1 = 1 ∨ x.1 = 2) ∧ x.2 = site := by
  cases clean <;> simp only [spawnSiteIds, if_true, if_false, Bool.false_eq_true,
    List.mem_cons, List.not_mem_nil, or_false] at h
  · rw [h]
    exact ⟨Or.inr rfl, rfl⟩
  · rcases h with h | h <;> rw [h]
    · exact ⟨Or.inl rfl, rfl⟩
    · exact ⟨Or.inr rfl, rfl⟩

theorem mem_flatMap_spawnSites {α : Type} {x : Nat × PodName} {clean : Bool}
    {l : List α} {g : α → PodName}
    (h : x ∈ l.flatMap (fun j => spawnSiteIds clean (g j))) :
    (x.1 = 1 ∨ x.1 = 2) ∧ ∃ j ∈ l, x.2 = g j := by
  obtain ⟨j, hj, hx⟩ := List.mem_flatMap.mp h
  obtain ⟨hk, hs⟩ := mem_spawnSiteIds hx
  exact ⟨hk, j, hj, hs⟩

theorem spawnSiteIds_nodup (clean : Bool) (site : PodName) :
    (spawnSiteIds clean site).Nodup := by
  cases clean <;> simp [spawnSiteIds]

theorem flatMap_spawnSites_nodup {α : Type} (clean : Bool) (g : α → PodName)
    (hg : ∀ a b, g a = g b → a = b) (l : List α) (hl : l.Nodup) :
    (l.flatMap (fun j => spawnSiteIds clean (g j))).Nodup := by
  refine nodup_flatMap_indexed _ (fun i => spawnSiteIds_nodup clean (g i)) ?_ l hl
  intro i j x hx hy
  have h1 := (mem_spawnSiteIds hx).2
  have h2 := (mem_spawnSiteIds hy).2
  exact hg i j (h1 ▸ h2)

theorem vaultPodNames_nodup (n : Nat) : (vaultPodNames n).Nodup :=
  (List.nodup_range n).map (fun a b h => by injection h)

theorem lsrPodNames_nodup (n : Nat) : (lsrPodNames n).Nodup :=
  (List.nodup_range n).map (fun a b h => by injection h)

theorem validatorPodNames_nodup (n : Nat) : (validatorPodNames n).Nodup :=
  (List.nodup_range n).map (fun a b h => by injection h)

theorem fnPairs_nodup (n fpv : Nat) : (fnPairs n fpv).Nodup := by
  refine nodup_flatMap_indexed _ ?_ ?_ (List.range n) (List.nodup_range n)
  · intro v
    exact (List.nodup_range fpv).map (fun a b h => by
      simpa using congrArg Prod.snd h)
  · intro i j x hx hy
    obtain ⟨f1, _, h1⟩ := List.mem_map.mp hx
    obtain ⟨f2, _, h2⟩ := List.mem_map.mp hy
    have e1 : x.1 = i := by rw [← h1]
    have e2 : x.1 = j := by rw [← h2]
    omega

theorem fullnodePodNames_nodup (n fpv : Nat) : (fullnodePodNames n fpv).Nodup := by
  refine (fnPairs_nodup n fpv).map ?_
  intro a b h
  have h1 : a.1 = b.1 ∧ a.2 = b.2 := by
    constructor <;> injection h
  exact Prod.ext h1.1 h1.2

theorem allocIds_nodup {names : List PodName} (h : names.Nodup) :
    (allocIds names).Nodup :=
  h.map (fun a b hab => by simpa using hab)

theorem opSiteSeq_nodup (n fpv : Nat) (el : Bool) (backend : String) (clean : Bool) :
    (opSiteSeq n fpv el backend clean).Nodup := by
  have c1 : ∀ x ∈ allocIds (if el ∧ backend = "vault" then vaultPodNames n else []),
      x.1 = 0 ∧ podCtor x.2 = 0 := by
    intro x hx
    obtain ⟨h0, hm⟩ := mem_allocIds hx
    refine ⟨h0, ?_⟩
    split at hm
    · obtain ⟨j, _, hj⟩ := List.mem_map.mp hm
      rw [← hj]
      rfl
    · exact absurd hm (List.not_mem_nil _)
  have c2 : ∀ x ∈ allocIds (if el then lsrPodNames n else []),
      x.1 = 0 ∧ podCtor x.2 = 1 := by
    intro x hx
    obtain ⟨h0, hm⟩ := mem_allocIds hx
    refine ⟨h0, ?_⟩
    split at hm
    · obtain ⟨j, _, hj⟩ := List.mem_map.mp hm
      rw [← hj]
      rfl
    · exact absurd hm (List.not_mem_nil _)
  have c3 : ∀ x ∈ (if el then (List.range n).flatMap
      (fun j => spawnSiteIds clean (PodName.lsrPod j)) else []),
      (x.1 = 1 ∨ x.1 = 2) ∧ podCtor x.2 = 1 := by
    intro x hx
    split at hx
    · obtain ⟨hk, j, _, hj⟩ := mem_flatMap_spawnSites hx
      exact ⟨hk, by rw [hj]; rfl⟩
    · exact absurd hx (List.not_mem_nil _)
  have c4 : ∀ x ∈ (if el ∧ backend = "vault" then (List.range n).flatMap
      (fun j => spawnSiteIds clean (PodName.vaultPod j)) else []),
      (x.1 = 1 ∨ x.1 = 2) ∧ podCtor x.2 = 0 := by
    intro x hx
    split at hx
    · obtain ⟨hk, j, _, hj⟩ := mem_flatMap_spawnSites hx
      exact ⟨hk, by rw [hj]; rfl⟩
    · exact absurd hx (List.not_mem_nil _)
  have c5 : ∀ x ∈ allocIds (validatorPodNames n), x.1 = 0 ∧ podCtor x.2 = 2 := by
    intro x hx
    obtain ⟨h0, hm⟩ := mem_allocIds hx
    obtain ⟨j, _, hj⟩ := List.mem_map.mp hm
    exact ⟨h0, by rw [← hj]; rfl⟩
  have c6 : ∀ x ∈ allocIds (fullnodePodNames n fpv), x.1 = 0 ∧ podCtor x.2 = 3 := by
    intro x hx
    obtain ⟨h0, hm⟩ := mem_allocIds hx
    obtain ⟨vf, _, hj⟩ := List.mem_map.mp hm
    exact ⟨h0, by rw [← hj]; rfl⟩
  have c8 : ∀ x ∈ (List.range n).flatMap
      (fun j => spawnSiteIds clean (PodName.validatorPod j)),
      (x.1 = 1 ∨ x.1 = 2) ∧ podCtor x.2 = 2 := by
    intro x hx
    obtain ⟨hk, j, _, hj⟩ := mem_flatMap_spawnSites hx
    exact ⟨hk, by rw [hj]; rfl⟩
  have c9 : ∀ x ∈ (fnPairs n fpv).flatMap
      (fun vf => spawnSiteIds clean (PodName.fullnodePod vf.1 vf.2)),
      (x.1 = 1 ∨ x.1 = 2) ∧ podCtor x.2 = 3 := by
    intro x hx
    obtain ⟨hk, j, _, hj⟩ := mem_flatMap_spawnSites hx
    exact ⟨hk, by rw [hj]; rfl⟩
  have n1 : (allocIds (if el ∧ backend = "vault" then vaultPodNames n else [])).Nodup := by
    split
    · exact allocIds_nodup (vaultPodNames_nodup n)
    · exact List.nodup_nil
  have n2 : (allocIds (if el then lsrPodNames n else [])).Nodup := by
    split
    · exact allocIds_nodup (lsrPodNames_nodup n)
    · exact List.nodup_nil
  have n3 : (if el then (List.range n).flatMap
      (fun j => spawnSiteIds clean (PodName.lsrPod j)) else []).Nodup := by
    split
    · exact flatMap_spawnSites_nodup clean _ (fun a b h => by injection h) _
        (List.nodup_range n)
    · exact List.nodup_nil
  have n4 : (if el ∧ backend = "vault" then (List.range n).flatMap
      (fun j => spawnSiteIds clean (PodName.vaultPod j)) else []).Nodup := by
    split
    · exact flatMap_spawnSites_nodup clean _ (fun a b h => by injection h) _
        (List.nodup_range n)
    · exact List.nodup_nil
  have n5 : (allocIds (validatorPodNames n)).Nodup :=
    allocIds_nodup (validatorPodNames_nodup n)
  have n6 : (allocIds (fullnodePodNames n fpv)).Nodup :=
    allocIds_nodup (fullnodePodNames_nodup n fpv)
  have n8 : ((List.range n).flatMap
      (fun j => spawnSiteIds clean (PodName.validatorPod j))).Nodup :=
    flatMap_spawnSites_nodup clean _ (fun a b h => by injection h) _
      (List.nodup_range n)
  have n9 : ((fnPairs n fpv).flatMap
      (fun vf => spawnSiteIds clean (PodName.fullnodePod vf.1 vf.2))).Nodup := by
    refine flatMap_spawnSites_nodup clean _ ?_ _ (fnPairs_nodup n fpv)
    intro a b h
    have h1 : a.1 = b.1 ∧ a.2 = b.2 := by
      constructor <;> injection h
    exact Prod.ext h1.1 h1.2
  rw [opSiteSeq]
  simp only [List.flatten]
  rw [List.nodup_append]
  refine ⟨n1, ?_, ?_⟩
  rotate_left
  · intro x hx hrest
    have h1 := c1 x hx
    simp only [List.mem_append, List.append_nil] at hrest
    rcases hrest with h | h | h | h | h | h | h | h
    · have := c2 x h; omega
    · have := c3 x h; omega
    · have := c4 x h; omega
    · have := c5 x h; omega
    · have := c6 x h; omega
    · exact absurd h (List.not_mem_nil x)
    · have := c8 x h; omega
    · have := c9 x h; omega
  rw [List.nodup_append]
  refine ⟨n2, ?_, ?_⟩
  rotate_left
  · intro x hx hrest
    have h1 := c2 x hx
    simp only [List.mem_append, List.append_nil] at hrest
    rcases hrest with h | h | h | h | h | h | h
    · have := c3 x h; omega
    · have := c4 x h; omega
    · have := c5 x h; omega
    · have := c6 x h; omega
    · exact absurd h (List.not_mem_nil x)
    · have := c8 x h; omega
    · have := c9 x h; omega
  rw [List.nodup_append]
  refine ⟨n3, ?_, ?_⟩
  rotate_left
  · intro x hx hrest
    have h1 := c3 x hx
    simp only [List.mem_append, List.append_nil] at hrest
    rcases hrest with h | h | h | h | h | h
    · have := c4 x h; omega
    · have := c5 x h; omega
    · have := c6 x h; omega
    · exact absurd h (List.not_mem_nil x)
    · have := c8 x h; omega
    · have := c9 x h; omega
  rw [List.nodup_append]
  refine ⟨n4, ?_, ?_⟩
  rotate_left
  · intro x hx hrest
    have h1 := c4 x hx
    simp only [List.mem_append, List.append_nil] at hrest
    rcases hrest with h | h | h | h | h
    · have := c5 x h; omega
    · have := c6 x h; omega
    · exact absurd h (List.not_mem_nil x)
    · have := c8 x h; omega
    · have := c9 x h; omega
  rw [List.nodup_append]
  refine ⟨n5, ?_, ?_⟩
  rotate_left
  · intro x hx hrest
    have h1 := c5 x hx
    simp only [List.mem_append, List.append_nil] at hrest
    rcases hrest with h | h | h | h
    · have := c6 x h; omega
    · exact absurd h (List.not_mem_nil x)
    · have := c8 x h; omega
    · have := c9 x h; omega
  rw [List.nodup_append]
  refine ⟨n6, ?_, ?_⟩
  rotate_left
  · intro x hx hrest
    have h1 := c6 x hx
    simp only [List.mem_append, List.append_nil] at hrest
    rcases hrest with h | h | h
    · exact absurd h (List.not_mem_nil x)
    · have := c8 x h; omega
    · have := c9 x h; omega
  rw [List.nodup_append]
  refine ⟨List.nodup_nil, ?_, by intro x hx; exact absurd hx (List.not_mem_nil x)⟩
  rw [List.nodup_append]
  refine ⟨n8, ?_, ?_⟩
  rotate_left
  · intro x hx hrest
    have h1 := c8 x hx
    simp only [List.mem_append, List.append_nil] at hrest
    have := c9 x hrest
    omega
  rw [List.nodup_append]
  exact ⟨n9, List.nodup_nil, by intro x _ hx; exact absurd hx (List.not_mem_nil x)⟩

theorem count_filterMap_opId (v : Nat × PodName) :
    ∀ l : List SCall,
      (l.filterMap opId).count v = l.countP (fun x => opId x == some v)
  | [] => rfl
  | a :: t => by
      cases ha : opId a with
      | none =>
          simp [List.filterMap_cons, ha, List.countP_cons,
            count_filterMap_opId v t]
      | some w =>
          simp [List.filterMap_cons, ha, List.countP_cons, List.count_cons,
            count_filterMap_opId v t]

/-- Every spawn-layer operation (allocation, data wipe, instance spawn) is
attempted at most once in any run, whatever the environment: the retry
wrapper is applied to nothing but the vault initialization. -/
theorem spawnSet_op_count_le_one (env : SEnv) (n fpv : Nat) (el : Bool)
    (backend tag : String) (ov : List String) (clean : Bool) (c : SCall)
    (v : Nat × PodName) (hv : opId c = some v) :
    ((spawnSet env n fpv el backend tag ov clean).1).count c ≤ 1 := by
  have h1 : ((spawnSet env n fpv el backend tag ov clean).1).count c ≤
      ((spawnSet env n fpv el backend tag ov clean).1).countP
        (fun x => opId x == some v) := by
    rw [List.count]
    apply List.countP_mono_left
    intro x _ hx
    have hxc : x = c := by simpa using hx
    rw [hxc, hv]
    simp
  have h2 : ((spawnSet env n fpv el backend tag ov clean).1).countP
      (fun x => opId x == some v) ≤ (opSiteSeq n fpv el backend clean).count v := by
    rw [← count_filterMap_opId]
    exact (spawnSet_ids_sub env n fpv el backend tag ov clean).count_le v
  have h3 := count_le_one_of_nodup _ (opSiteSeq_nodup n fpv el backend clean) v
  omega

/-- C5: the bounded fixed-delay retry (at most `retryLimit = 15` attempts,
`retryDelayMs = 5000` ms apart, modelled from the spec since the retrier
crate is outside this repository) wraps exactly the secret-tier node
initialization: (1) a node whose initialization never succeeds makes the
whole run fail; (2) on an otherwise healthy run it is attempted exactly
`retryLimit` times before the run aborts with the last attempt's error;
(3) every other spawn-layer operation and (4) every genesis operation is
attempted at most once in any run — the retry is applied to no other
operation. -/
theorem vault_retry_policy :
    retryLimit = 15 ∧ retryDelayMs = 5000 ∧
    (∀ (env : SEnv) (n fpv : Nat) (tag : String) (ov : List String) (clean : Bool)
      (i : Nat), i < n →
      (∀ a, env.vaultInitRes i a ≠ Except.ok ()) →
      ∀ res, (spawnSet env n fpv true "vault" tag ov clean).2 ≠ Except.ok res) ∧
    (∀ (env : SEnv) (nodeOf : PodName → KubeNode) (n fpv : Nat) (tag : String)
      (ov : List String) (clean : Bool) (i : Nat) (ef : Nat → Err), i < n →
      (∀ p, env.allocateRes p = Except.ok (nodeOf p)) →
      (∀ s, env.cleanDataRes s = Except.ok ()) →
      (∀ cfg, env.spawnRes cfg = Except.ok ()) →
      (∀ a, env.vaultInitRes i a = Except.error (ef a)) →
      (∀ j, j ≠ i → env.vaultInitRes j 0 = Except.ok ()) →
      ((spawnSet env n fpv true "vault" tag ov clean).1).countP (isVaultAttemptAt i) =
        retryLimit ∧
      (spawnSet env n fpv true "vault" tag ov clean).2 =
        Except.error (ef (retryLimit - 1))) ∧
    (∀ (env : SEnv) (n fpv : Nat) (el : Bool) (backend tag : String)
      (ov : List String) (clean : Bool) (c : SCall) (v : Nat × PodName),
      opId c = some v →
      ((spawnSet env n fpv el backend tag ov clean).1).count c ≤ 1) ∧
    (∀ (genv : GenEnv) (a b c : List KubeNode) (g : GenCall),
      ((generateGenesis genv a b c).1).count g ≤ 1) :=
  ⟨rfl, rfl,
   fun env n fpv tag ov clean i hi hfail =>
     spawnSet_vault_exhaustion env n fpv tag ov clean i hi hfail,
   fun env nodeOf n fpv tag ov clean i ef hi ha hc hs hbad hok =>
     spawnSet_vault_fail_count env nodeOf n fpv tag ov clean i ef hi ha hc hs hbad hok,
   fun env n fpv el backend tag ov clean c v hv =>
     spawnSet_op_count_le_one env n fpv el backend tag ov clean c v hv,
   fun genv a b c g => generateGenesis_count_le_one genv a b c g⟩

/-- `sampleSEnv`, but the secret store of node 0 never becomes available. -/
def sampleSEnvVaultFail : SEnv :=
  { sampleSEnv with
      vaultInitRes := fun j _ =>
        if j = 0 then Except.error (Err.remote "vault down") else Except.ok () }

/-- Witness for C5 at concrete inputs: a run with node 0's secret store
permanently down fails and makes exactly 15 attempts there; a specific
allocation and a specific genesis operation are counted at most once. -/
theorem vault_retry_policy_witness :
    (∀ res, (spawnSet sampleSEnvVaultFail 1 1 true "vault" "t" [] false).2 ≠
      Except.ok res) ∧
    ((spawnSet sampleSEnvVaultFail 1 1 true "vault" "t" [] false).1).countP
      (isVaultAttemptAt 0) = retryLimit ∧
    ((spawnSet sampleSEnv 1 1 true "vault" "t" [] false).1).count
      (SCall.allocate (PodName.validatorPod 0)) ≤ 1 ∧
    ((generateGenesis sampleGenEnv [sampleNode 0] [sampleNode 1] [sampleNode 2]).1).count
      GenCall.setLayout ≤ 1 :=
  ⟨vault_retry_policy.2.2.1 sampleSEnvVaultFail 1 1 "t" [] false 0 (by decide)
      (fun a h => by simp [sampleSEnvVaultFail] at h),
   (vault_retry_policy.2.2.2.1 sampleSEnvVaultFail sampleNodeOf 1 1 "t" [] false 0
      (fun _ => Err.remote "vault down") (by decide) (fun _ => rfl) (fun _ => rfl)
      (fun _ => rfl) (fun _ => rfl)
      (fun j hj => by simp [sampleSEnvVaultFail, hj])).1,
   vault_retry_policy.2.2.2.2.1 sampleSEnv 1 1 true "vault" "t" [] false
      (SCall.allocate (PodName.validatorPod 0)) (0, PodName.validatorPod 0) rfl,
   vault_retry_policy.2.2.2.2.2 sampleGenEnv [sampleNode 0] [sampleNode 1]
      [sampleNode 2] GenCall.setLayout⟩

/-! ### C1: `setup_cluster` (lines 92-153) and the required instance count -/

/-- One operation of `setup_cluster` itself: the startup cleanup, the
workspace lookup, a pool resize (`aws::set_asg_size`, recorded with its
target size, buffer percent, and the up/down wait flags), or an embedded
spawn-layer operation. -/
inductive TopCall where
  | cleanup
  | getWorkspace
  | setAsgSize (target : Nat) (bufferPercent : Nat) (waitA : Bool) (waitB : Bool)
  | spawnCall (c : SCall)
  deriving DecidableEq, Repr

/-- Results of `setup_cluster`'s own remote calls. -/
structure TopEnv where
  cleanupRes : Except Err Unit
  workspaceRes : Except Err String
  setAsgSizeRes : Nat → Except Err Unit
  senv : SEnv

/-- `setup_cluster`: cleanup, workspace lookup (an `expect`, so failure is
a panic), the instance-count computation (lines 113-121), the two pool
resizes when `clean_data` (scale to zero draining, then scale up to the
computed count), then `spawn_validator_and_fullnode_set`. -/
def setup_cluster (env : TopEnv) (p : ClusterBuilderParams) (image_tag : String)
    (clean_data : Bool) : List TopCall × Except Err SpawnResult :=
  match env.cleanupRes with
  | Except.error e => ([TopCall.cleanup], Except.error e)
  | Except.ok _ =>
    match env.workspaceRes with
    | Except.error _ =>
        ([TopCall.cleanup, TopCall.getWorkspace],
         Except.error (Err.panicked "Failed to get workspace"))
    | Except.ok _ =>
      let instance_count := requiredInstanceCount p
      let resizePart : List TopCall × Except Err Unit :=
        if clean_data then
          match env.setAsgSizeRes 0 with
          | Except.error e =>
              ([TopCall.setAsgSize 0 0 true true], Except.error e)
          | Except.ok _ =>
            match env.setAsgSizeRes instance_count with
            | Except.error e =>
                ([TopCall.setAsgSize 0 0 true true,
                  TopCall.setAsgSize instance_count 5 true false], Except.error e)
            | Except.ok _ =>
                ([TopCall.setAsgSize 0 0 true true,
                  TopCall.setAsgSize instance_count 5 true false], Except.ok ())
        else ([], Except.ok ())
      match resizePart with
      | (t, Except.error e) =>
          (TopCall.cleanup :: TopCall.getWorkspace :: t, Except.error e)
      | (t, Except.ok _) =>
          let r := spawnSet env.senv p.num_validators p.fullnodes_per_validator
            p.enable_lsr_value p.lsr_backend image_tag p.cfg_overrides clean_data
          (TopCall.cleanup :: TopCall.getWorkspace :: t ++ r.1.map TopCall.spawnCall,
           r.2)

/-- C1: the instance count `setup_cluster` computes before issuing any
pool-resize request equals the spec formula
`validators + validators×fullnodesPerValidator + roleExtra`, and every
pool-resize request any run of `setup_cluster` issues carries either
target 0 (the drain) or exactly that count (the scale-up). -/
theorem requiredInstanceCount_eq_spec (p : ClusterBuilderParams) :
    requiredInstanceCount p = specInstanceCount p ∧
    (∀ (env : TopEnv) (tag : String) (clean : Bool) (t b : Nat) (wa wb : Bool),
      TopCall.setAsgSize t b wa wb ∈ (setup_cluster env p tag clean).1 →
      t = 0 ∨ t = specInstanceCount p) := by
  refine ⟨requiredInstanceCount_formula p, ?_⟩
  intro env tag clean t b wa wb hmem
  cases hc : env.cleanupRes with
  | error e => simp [setup_cluster, hc] at hmem
  | ok u =>
    cases hw : env.workspaceRes with
    | error e => simp [setup_cluster, hc, hw] at hmem
    | ok ws =>
      by_cases hcl : clean = true
      · cases h0 : env.setAsgSizeRes 0 with
        | error e0 =>
            simp [setup_cluster, hc, hw, hcl, h0] at hmem
            exact Or.inl hmem.1
        | ok u0 =>
            cases h1 : env.setAsgSizeRes (requiredInstanceCount p) with
            | error e1 =>
                simp [setup_cluster, hc, hw, hcl, h0, h1] at hmem
                rw [requiredInstanceCount_formula p] at hmem
                tauto
            | ok u1 =>
                simp [setup_cluster, hc, hw, hcl, h0, h1] at hmem
                rw [requiredInstanceCount_formula p] at hmem
                tauto
      · simp [setup_cluster, hc, hw, hcl] at hmem

/-- A concrete `setup_cluster` environment for the witness. -/
def sampleTopEnv : TopEnv where
  cleanupRes := Except.ok ()
  workspaceRes := Except.ok "ws"
  setAsgSizeRes := fun _ => Except.ok ()
  senv := sampleSEnv

/-- Witness for C1: the concrete scale-up request of a clean two-validator
run carries the spec-formula count. -/
theorem requiredInstanceCount_eq_spec_witness :
    requiredInstanceCount
        { fullnodes_per_validator := 1, cfg := [], num_validators := 2,
          enable_lsr := some true, lsr_backend := "vault" } =
      specInstanceCount
        { fullnodes_per_validator := 1, cfg := [], num_validators := 2,
          enable_lsr := some true, lsr_backend := "vault" } ∧
    ((8 : Nat) = 0 ∨ (8 : Nat) = specInstanceCount
        { fullnodes_per_validator := 1, cfg := [], num_validators := 2,
          enable_lsr := some true, lsr_backend := "vault" }) :=
  ⟨(requiredInstanceCount_eq_spec _).1,
   (requiredInstanceCount_eq_spec
      { fullnodes_per_validator := 1, cfg := [], num_validators := 2,
        enable_lsr := some true, lsr_backend := "vault" }).2
      sampleTopEnv "t" true 8 5 true false (by decide)⟩

end ClusterBuilderProof
